import Mathlib

/-!
Verification development for the nomad-driver-ch repository.

The driver manages lightweight VM lifecycles: IP allocation from a configured
pool (`Driver.allocateIP`), VM creation with rollback on failure
(`Driver.CreateDomain`), stop/destroy (`Driver.StopDomain`,
`Driver.DestroyDomain`), network-setting derivation
(`Driver.deriveNetworkSettings`), firewall teardown
(`Controller.VMTerminatedTeardown`), the VFIO allowlist matcher, TAP interface
naming, and deterministic MAC generation.

IPv4 addresses are modelled as natural numbers below 2^32.  The Go code keys
its allocation map by the `String()` rendering of `netip.Addr` values, and the
task-supplied static-IP path inserts raw caller strings into the same map, so
the allocated set is modelled as a list of strings together with an explicit
dotted-quad rendering (`ipString`) and parser (`parseAddr`, mirroring the
IPv4 branch of `netip.ParseAddr`: four decimal fields, each at most three
digits, no leading zeros, value at most 255).
-/

set_option maxHeartbeats 1000000
set_option maxRecDepth 100000

namespace NomadDriverCH

/-- The decimal digit character for `n < 10` (`'0'` has code 48). -/
def digitChar (n : Nat) : Char := Char.ofNat (48 + n)

/-- Decimal rendering of one IPv4 byte (`0 ≤ m ≤ 255`), as produced by
`netip.Addr.String` for each dotted-quad field. -/
def byteDigits (m : Nat) : List Char :=
  if m < 10 then [digitChar m]
  else if m < 100 then [digitChar (m / 10), digitChar (m % 10)]
  else [digitChar (m / 100), digitChar (m / 10 % 10), digitChar (m % 10)]

/-- The characters of the dotted-quad rendering of an IPv4 address held as a
`Nat` below `2^32`; mirrors `netip.Addr.String` for 4-byte addresses. -/
def ipChars (ip : Nat) : List Char :=
  byteDigits (ip / 2 ^ 24 % 256) ++ '.' :: byteDigits (ip / 2 ^ 16 % 256) ++
    '.' :: byteDigits (ip / 2 ^ 8 % 256) ++ '.' :: byteDigits (ip % 256)

/-- Dotted-quad string of an IPv4 address, mirroring `netip.Addr.String`. -/
def ipString (ip : Nat) : String := String.mk (ipChars ip)

/-- Split a character list on `'.'` separators (no separator collapsing),
as `strings.Split`/the field scanner of `netip.ParseAddr` would. -/
def splitDots : List Char → List (List Char)
  | [] => [[]]
  | c :: rest =>
    if c = '.' then [] :: splitDots rest
    else
      match splitDots rest with
      | [] => [[c]]
      | f :: fs => (c :: f) :: fs

/-- Decimal digit test. -/
def isDigitCh (c : Char) : Bool := decide ('0' ≤ c) && decide (c ≤ '9')

/-- Numeric value of a decimal digit character. -/
def digitVal (c : Char) : Nat := c.toNat - 48

/-- Parse one dotted-quad field the way `netip.ParseAddr` does: one to three
decimal digits, no leading zero, value at most 255. -/
def parseDecField (f : List Char) : Option Nat :=
  if f.isEmpty then none
  else if !(f.all isDigitCh) then none
  else if f.length > 1 && f.head? == some '0' then none
  else if f.length > 3 then none
  else
    let v := f.foldl (fun acc c => acc * 10 + digitVal c) 0
    if v ≤ 255 then some v else none

/-- Parse an IPv4 dotted-quad string to its numeric value; models the IPv4
branch of `netip.ParseAddr` (IPv6 forms are outside the model: the driver
configures IPv4 subnets and pools). -/
def parseAddr (s : String) : Option Nat :=
  match splitDots s.data with
  | [a, b, c, d] =>
    match parseDecField a, parseDecField b, parseDecField c, parseDecField d with
    | some x, some y, some z, some w =>
      some (x * 2 ^ 24 + y * 2 ^ 16 + z * 2 ^ 8 + w)
    | _, _, _, _ => none
  | _ => none

theorem parseDecField_byteDigits : ∀ m < 256, parseDecField (byteDigits m) = some m := by
  decide

theorem dot_not_mem_byteDigits : ∀ m < 256, '.' ∉ byteDigits m := by
  decide

theorem splitDots_cons (c : Char) (l : List Char) :
    splitDots (c :: l) = if c = '.' then [] :: splitDots l
      else match splitDots l with
        | [] => [[c]]
        | f :: fs => (c :: f) :: fs := rfl

theorem splitDots_no_dot (xs : List Char) (h : '.' ∉ xs) : splitDots xs = [xs] := by
  induction xs with
  | nil => rfl
  | cons c rest ih =>
    have hc : ¬ c = '.' := fun hc => h (hc ▸ List.mem_cons_self c rest)
    have hr : '.' ∉ rest := fun hm => h (List.mem_cons_of_mem c hm)
    rw [splitDots_cons, if_neg hc, ih hr]

theorem splitDots_append (xs : List Char) (h : '.' ∉ xs) (rest : List Char) :
    splitDots (xs ++ '.' :: rest) = xs :: splitDots rest := by
  induction xs with
  | nil => simp [splitDots]
  | cons c tl ih =>
    have hc : ¬ c = '.' := fun hc => h (hc ▸ List.mem_cons_self c tl)
    have ht : '.' ∉ tl := fun hm => h (List.mem_cons_of_mem c hm)
    rw [List.cons_append, splitDots_cons, if_neg hc, ih ht]

theorem parseAddr_ipString (ip : Nat) (h : ip < 2 ^ 32) :
    parseAddr (ipString ip) = some ip := by
  have h3 : ip / 2 ^ 24 % 256 < 256 := Nat.mod_lt _ (by norm_num)
  have h2 : ip / 2 ^ 16 % 256 < 256 := Nat.mod_lt _ (by norm_num)
  have h1 : ip / 2 ^ 8 % 256 < 256 := Nat.mod_lt _ (by norm_num)
  have h0 : ip % 256 < 256 := Nat.mod_lt _ (by norm_num)
  have hsplit : splitDots (ipChars ip) =
      [byteDigits (ip / 2 ^ 24 % 256), byteDigits (ip / 2 ^ 16 % 256),
        byteDigits (ip / 2 ^ 8 % 256), byteDigits (ip % 256)] := by
    unfold ipChars
    simp only [List.append_assoc, List.cons_append]
    rw [splitDots_append _ (dot_not_mem_byteDigits _ h3),
      splitDots_append _ (dot_not_mem_byteDigits _ h2),
      splitDots_append _ (dot_not_mem_byteDigits _ h1),
      splitDots_no_dot _ (dot_not_mem_byteDigits _ h0)]
  unfold parseAddr ipString
  simp only [hsplit, parseDecField_byteDigits _ h3, parseDecField_byteDigits _ h2,
    parseDecField_byteDigits _ h1, parseDecField_byteDigits _ h0]
  congr 1
  omega

theorem ipString_inj {a b : Nat} (ha : a < 2 ^ 32) (hb : b < 2 ^ 32)
    (h : ipString a = ipString b) : a = b := by
  have := parseAddr_ipString a ha
  rw [h, parseAddr_ipString b hb] at this
  exact (Option.some.injEq _ _).mp this.symm

/-- An IPv4 CIDR prefix: a `netip.Prefix` restricted to 4-byte addresses.
`addr` is the prefix address (already masked by `initializeNetworkConfig`,
which stores `prefix.Masked()`), `bits` the prefix length. -/
structure IpPrefix where
  addr : Nat
  bits : Nat
deriving DecidableEq, Repr

/-- `netip.Prefix.Contains` for IPv4: the high `bits` bits of `ip` equal the
high `bits` bits of the prefix address. -/
def IpPrefix.containsIP (p : IpPrefix) (ip : Nat) : Bool :=
  ip / 2 ^ (32 - p.bits) == p.addr / 2 ^ (32 - p.bits)

/-- Option-level `IsValid() && Contains(ip)` combination used throughout the
driver (`netip.Prefix` zero value is invalid, modelled as `none`). -/
def subnetContains : Option IpPrefix → Nat → Bool
  | some p, ip => p.containsIP ip
  | none, _ => false

/-- A CIDR prefix covers a contiguous numeric range: any address between two
covered addresses is covered. -/
theorem containsIP_of_between (p : IpPrefix) {a b ip : Nat}
    (ha : p.containsIP a = true) (hb : p.containsIP b = true)
    (h1 : a ≤ ip) (h2 : ip ≤ b) : p.containsIP ip = true := by
  unfold IpPrefix.containsIP at *
  have ha' : a / 2 ^ (32 - p.bits) = p.addr / 2 ^ (32 - p.bits) := by
    simpa using ha
  have hb' : b / 2 ^ (32 - p.bits) = p.addr / 2 ^ (32 - p.bits) := by
    simpa using hb
  have l1 : a / 2 ^ (32 - p.bits) ≤ ip / 2 ^ (32 - p.bits) :=
    Nat.div_le_div_right h1
  have l2 : ip / 2 ^ (32 - p.bits) ≤ b / 2 ^ (32 - p.bits) :=
    Nat.div_le_div_right h2
  simp only [beq_iff_eq]
  omega

/-- `netip.Addr.IsValid` for the optional IPv4 addresses held by the driver:
the zero value (`none`) is invalid, and a 4-byte address value is below
`2^32`. -/
def addrValid : Option Nat → Bool
  | some a => decide (a < 2 ^ 32)
  | none => false

/-- A parsed `netip.Addr`: an IPv4 value, or an IPv6 address (its 16 bytes)
with its zone. -/
inductive NetipAddr
  | v4 (ip : Nat)
  | v6 (bytes : List Nat) (zone : String)
deriving DecidableEq, Repr

/-- Value of one hexadecimal digit, per the inlined hex scanning of netip's
`parseIPv6` (digits, `a`-`f` and `A`-`F`). -/
def hexDigitVal (c : Char) : Option Nat :=
  if '0' ≤ c ∧ c ≤ '9' then some (c.toNat - 48)
  else if 'a' ≤ c ∧ c ≤ 'f' then some (c.toNat - 87)
  else if 'A' ≤ c ∧ c ≤ 'F' then some (c.toNat - 55)
  else none

/-- The hex-field scanner of netip's `parseIPv6`: consume leading hex
digits, accumulating `acc*16 + digit`; `none` once the accumulator exceeds
`0xFFFF` ("IPv6 field has value >=2^16"), otherwise the value, the digit
count and the unconsumed rest. -/
def scanHexField : List Char → Nat → Nat → Option (Nat × Nat × List Char)
  | [], acc, n => some (acc, n, [])
  | c :: cs, acc, n =>
    match hexDigitVal c with
    | none => some (acc, n, c :: cs)
    | some v =>
      if acc * 16 + v > 65535 then none
      else scanHexField cs (acc * 16 + v) (n + 1)

/-- The zone split of netip's `parseIPv6`: the part before the first `'%'`
and the zone after it, when a `'%'` is present. -/
def splitZone : List Char → Option (List Char × List Char)
  | [] => none
  | c :: cs =>
    if c = '%' then some ([], cs)
    else
      match splitZone cs with
      | none => none
      | some (a, z) => some (c :: a, z)

/-- The field loop of netip's `parseIPv6` on the zone-stripped input: `i`
counts bytes written, `bytes` holds them in order, `ell` the byte position
of a `::` once seen.  Mirrors the source loop body: scan one hex field
(overflow and empty fields are errors); on a following `'.'` parse the whole
remaining input as an embedded IPv4 tail (allowed only at byte 12 unless a
`::` was seen, and only when 4 bytes still fit); otherwise write the two
chunk bytes and consume the separating colon, a second colon recording the
`::` position (at most one `::`).  Returns the bytes, the byte count, the
`::` position and the unconsumed input.  The fuel only bounds the recursion:
every recursive call consumes at least two characters, so length + 1 always
suffices. -/
def parseIPv6Loop : Nat → List Char → Nat → List Nat → Option Nat →
    Option (List Nat × Nat × Option Nat × List Char)
  | 0, _, _, _, _ => none
  | fuel + 1, s, i, bytes, ell =>
    if 16 ≤ i then some (bytes, i, ell, s)
    else
      match scanHexField s 0 0 with
      | none => none
      | some (acc, off, rest) =>
        if off = 0 then none
        else if rest.head? = some '.' then
          if ell = none ∧ i ≠ 12 then none
          else if i + 4 > 16 then none
          else
            match parseAddr (String.mk s) with
            | none => none
            | some ip4 =>
              some (bytes ++ [ip4 / 2 ^ 24 % 256, ip4 / 2 ^ 16 % 256,
                ip4 / 2 ^ 8 % 256, ip4 % 256], i + 4, ell, [])
        else
          match rest with
          | [] => some (bytes ++ [acc / 256, acc % 256], i + 2, ell, [])
          | c :: rest2 =>
            if c ≠ ':' then none
            else
              match rest2 with
              | [] => none
              | c2 :: rest3 =>
                if c2 = ':' then
                  if ell ≠ none then none
                  else
                    match rest3 with
                    | [] => some (bytes ++ [acc / 256, acc % 256], i + 2,
                        some (i + 2), [])
                    | _ => parseIPv6Loop fuel rest3 (i + 2)
                        (bytes ++ [acc / 256, acc % 256]) (some (i + 2))
                else
                  parseIPv6Loop fuel (c2 :: rest3) (i + 2)
                    (bytes ++ [acc / 256, acc % 256]) ell

/-- The post-loop checks of netip's `parseIPv6`: unconsumed input is an
error ("trailing garbage"); a short address requires a `::`, expanded with
zero bytes at its position; a full 16-byte address must not also carry a
`::`. -/
def parseIPv6Finish (bytes : List Nat) (i : Nat) (ell : Option Nat)
    (leftover : List Char) (zone : String) : Option (List Nat × String) :=
  if leftover ≠ [] then none
  else if i < 16 then
    match ell with
    | none => none
    | some e =>
      some (bytes.take e ++ List.replicate (16 - i) 0 ++ bytes.drop e, zone)
  else
    match ell with
    | some _ => none
    | none => some (bytes, zone)

/-- The body of netip's `parseIPv6` after the zone split: a leading `::`
(bare `::` is the unspecified address) sets the ellipsis before the field
loop; then the loop and the post-loop checks. -/
def parseIPv6Of (chars : List Char) (zone : String) :
    Option (List Nat × String) :=
  match chars with
  | ':' :: ':' :: rest =>
    match rest with
    | [] => some (List.replicate 16 0, zone)
    | _ =>
      match parseIPv6Loop (rest.length + 1) rest 0 [] (some 0) with
      | none => none
      | some (bytes, i, ell, leftover) =>
        parseIPv6Finish bytes i ell leftover zone
  | _ =>
    match parseIPv6Loop (chars.length + 1) chars 0 [] none with
    | none => none
    | some (bytes, i, ell, leftover) =>
      parseIPv6Finish bytes i ell leftover zone

/-- netip's `parseIPv6`: split off a zone after the first `'%'` (an empty
zone is an error), then parse the 16-byte address. -/
def parseIPv6 (chars : List Char) : Option (List Nat × String) :=
  match splitZone chars with
  | some (_, []) => none
  | some (body, z) => parseIPv6Of body (String.mk z)
  | none => parseIPv6Of chars ""

/-- The dispatch scan of `netip.ParseAddr`: the first `'.'`, `':'` or `'%'`
of the input decides the address family. -/
def addrDispatch : List Char → Option Char
  | [] => none
  | c :: cs => if c = '.' ∨ c = ':' ∨ c = '%' then some c else addrDispatch cs

/-- `netip.ParseAddr`: on the first special character, `'.'` parses IPv4
(`parseAddr`), `':'` parses IPv6; a leading-special `'%'` ("missing IPv6
address") or no special character at all ("unable to parse IP") is an
error. -/
def parseNetipAddr (s : String) : Option NetipAddr :=
  match addrDispatch s.data with
  | some c =>
    if c = '.' then (parseAddr s).map NetipAddr.v4
    else if c = ':' then
      (parseIPv6 s.data).map (fun bz => NetipAddr.v6 bz.1 bz.2)
    else none
  | none => none

/-- `netip.Prefix.Contains` on a parsed address, against the driver's IPv4
subnet: an IPv4 address compares under the mask (`containsIP`); an IPv6
address is never contained, since `Contains` returns false when the bit
lengths of prefix and address differ (or the address carries a zone). -/
def netipPrefixContains (p : IpPrefix) (a : NetipAddr) : Bool :=
  match a with
  | .v4 ip => p.containsIP ip
  | .v6 _ _ => false

theorem splitDots_ne_nil (l : List Char) : splitDots l ≠ [] := by
  cases l with
  | nil => simp [splitDots]
  | cons c rest =>
    rw [splitDots_cons]
    split_ifs
    · simp
    · cases splitDots rest <;> simp

theorem dot_mem_of_splitDots (l : List Char) (h : 2 ≤ (splitDots l).length) :
    '.' ∈ l := by
  induction l with
  | nil => simp [splitDots] at h
  | cons c rest ih =>
    by_cases hc : c = '.'
    · rw [hc]
      exact List.mem_cons_self '.' rest
    · rw [splitDots_cons, if_neg hc] at h
      rcases hrest : splitDots rest with _ | ⟨f, fs⟩
      · exact absurd hrest (splitDots_ne_nil rest)
      · rw [hrest] at h
        refine List.mem_cons_of_mem c (ih ?_)
        rw [hrest]
        simpa using h

theorem mem_field_of_mem_splitDots (l : List Char) (ch : Char) (hch : ch ∈ l) :
    ch = '.' ∨ ∃ f ∈ splitDots l, ch ∈ f := by
  induction l with
  | nil => cases hch
  | cons c rest ih =>
    by_cases hc : c = '.'
    · rcases List.mem_cons.mp hch with rfl | hm
      · exact Or.inl hc
      · rcases ih hm with h1 | ⟨f, hf, hcf⟩
        · exact Or.inl h1
        · refine Or.inr ⟨f, ?_, hcf⟩
          rw [splitDots_cons, if_pos hc]
          exact List.mem_cons_of_mem _ hf
    · rcases hrest : splitDots rest with _ | ⟨f0, fs⟩
      · exact absurd hrest (splitDots_ne_nil rest)
      · have hsl : splitDots (c :: rest) = (c :: f0) :: fs := by
          rw [splitDots_cons, if_neg hc, hrest]
        rcases List.mem_cons.mp hch with rfl | hm
        · exact Or.inr ⟨ch :: f0, by rw [hsl]; exact List.mem_cons_self _ _,
            List.mem_cons_self _ _⟩
        · rcases ih hm with h1 | ⟨f, hf, hcf⟩
          · exact Or.inl h1
          · rw [hrest] at hf
            rcases List.mem_cons.mp hf with rfl | hffs
            · exact Or.inr ⟨c :: f, by rw [hsl]; exact List.mem_cons_self _ _,
                List.mem_cons_of_mem c hcf⟩
            · exact Or.inr ⟨f, by rw [hsl]; exact List.mem_cons_of_mem _ hffs,
                hcf⟩

theorem parseDecField_digits (f : List Char) (v : Nat)
    (h : parseDecField f = some v) : ∀ ch ∈ f, isDigitCh ch = true := by
  unfold parseDecField at h
  split at h
  · cases h
  · split at h
    · cases h
    · rename_i h1 h2
      intro ch hch
      have hb : f.all isDigitCh = true := by
        rcases hx : f.all isDigitCh with _ | _
        · exact absurd (by rw [hx]; rfl) h2
        · rfl
      exact List.all_eq_true.mp hb ch hch

theorem addrDispatch_dot (l : List Char) (hd : '.' ∈ l)
    (hall : ∀ ch ∈ l, ch = '.' ∨ isDigitCh ch = true) :
    addrDispatch l = some '.' := by
  induction l with
  | nil => cases hd
  | cons c rest ih =>
    by_cases hc : c = '.'
    · unfold addrDispatch
      rw [if_pos (Or.inl hc), hc]
    · have hcd : isDigitCh c = true := by
        rcases hall c (List.mem_cons_self c rest) with h1 | h2
        · exact absurd h1 hc
        · exact h2
      have hnc : ¬ (c = '.' ∨ c = ':' ∨ c = '%') := by
        rintro (h | h | h)
        · exact hc h
        · rw [h] at hcd
          exact absurd hcd (by decide)
        · rw [h] at hcd
          exact absurd hcd (by decide)
      unfold addrDispatch
      rw [if_neg hnc]
      have hdrest : '.' ∈ rest := by
        rcases List.mem_cons.mp hd with h1 | h1
        · exact absurd h1.symm hc
        · exact h1
      exact ih hdrest (fun ch hch => hall ch (List.mem_cons_of_mem c hch))

theorem parseAddr_shape (s : String) (x : Nat) (h : parseAddr s = some x) :
    (∀ ch ∈ s.data, ch = '.' ∨ isDigitCh ch = true) ∧ '.' ∈ s.data := by
  unfold parseAddr at h
  split at h
  · rename_i a b c dd hsplit
    split at h
    · rename_i pa pb pc pd hpa hpb hpc hpd
      constructor
      · intro ch hch
        rcases mem_field_of_mem_splitDots s.data ch hch with hdd | ⟨f, hf, hcf⟩
        · exact Or.inl hdd
        · rw [hsplit] at hf
          simp only [List.mem_cons, List.not_mem_nil, or_false] at hf
          rcases hf with rfl | rfl | rfl | rfl
          · exact Or.inr (parseDecField_digits _ _ hpa ch hcf)
          · exact Or.inr (parseDecField_digits _ _ hpb ch hcf)
          · exact Or.inr (parseDecField_digits _ _ hpc ch hcf)
          · exact Or.inr (parseDecField_digits _ _ hpd ch hcf)
      · apply dot_mem_of_splitDots
        rw [hsplit]
        simp
    · cases h
  · cases h

theorem addrDispatch_of_parseAddr (s : String) (x : Nat)
    (h : parseAddr s = some x) : addrDispatch s.data = some '.' := by
  obtain ⟨hall, hdot⟩ := parseAddr_shape s x h
  exact addrDispatch_dot s.data hdot hall

theorem parseNetipAddr_v4 (s : String) (x : Nat) (h : parseAddr s = some x) :
    parseNetipAddr s = some (NetipAddr.v4 x) := by
  unfold parseNetipAddr
  rw [addrDispatch_of_parseAddr s x h]
  show (if ('.' : Char) = '.' then (parseAddr s).map NetipAddr.v4
    else if ('.' : Char) = ':' then
      (parseIPv6 s.data).map (fun bz => NetipAddr.v6 bz.1 bz.2)
    else none) = some (NetipAddr.v4 x)
  rw [if_pos rfl, h]
  rfl

/-- The fields of `domain.Network` the driver reads directly (raw
configuration strings). -/
structure DomainNetwork where
  bridge : String
  gateway : String
  tapPrefix : String
deriving DecidableEq, Repr

/-- The network-related state of `cloudhypervisor.Driver`: the optional raw
configuration plus the pre-parsed subnet, gateway and pool bounds produced by
`initializeNetworkConfig`. -/
structure DriverCfg where
  networkConfig : Option DomainNetwork
  subnet : Option IpPrefix
  gatewayIP : Option Nat
  ipPoolStart : Option Nat
  ipPoolEnd : Option Nat
deriving DecidableEq, Repr

/-- `Driver.validateNetworkConfig`: true exactly when the Go method returns a
nil error.  Checks, in source order: configuration present, bridge set, subnet
valid, gateway valid and inside the subnet, both pool bounds valid and inside
the subnet, pool end not before pool start, and gateway distinct from the pool
start. -/
def validateNetworkConfig (d : DriverCfg) : Bool :=
  match d.networkConfig with
  | none => false
  | some nc =>
    !(nc.bridge == "") &&
    d.subnet.isSome &&
    (match d.gatewayIP with
     | some gw => addrValid (some gw) && subnetContains d.subnet gw
     | none => false) &&
    addrValid d.ipPoolStart && addrValid d.ipPoolEnd &&
    (match d.ipPoolStart, d.ipPoolEnd with
     | some s, some e =>
       subnetContains d.subnet s && subnetContains d.subnet e &&
       decide (s ≤ e) && !(d.gatewayIP == some s)
     | _, _ => false)

/-- Errors of `Driver.allocateIP`. -/
inductive AllocErr
  | poolNotConfigured
  | outsideSubnet
  | noAvailable
deriving DecidableEq, Repr

/-- The scan loop of `Driver.allocateIP`, started at `ip` with pool end `e`.
Per iteration, in source order: fail when the subnet is configured and does
not contain `ip`; skip the gateway (stopping at the pool end or at an
unrepresentable successor); hand out `ip` when its string is not in the
allocated set; otherwise advance, stopping at the pool end (never wrapping)
or when the successor address is invalid (`next.IsValid()` fails only past
255.255.255.255, i.e. when `ip + 1` would reach `2^32`).  The Go loop needs
no fuel; here termination is made structural with a fuel argument,
`allocateIP` supplying `2^32`, strictly more than the at most `2^32 − ip`
iterations the loop can take, so the fuel-exhausted branch is unreachable. -/
def allocateIPLoop (d : DriverCfg) (e : Nat) (alloc : List String) :
    Nat → Nat → Except AllocErr (String × List String)
  | _, 0 => .error .noAvailable
  | ip, fuel + 1 =>
    if d.subnet.isSome && !(subnetContains d.subnet ip) then
      .error .outsideSubnet
    else if d.gatewayIP == some ip then
      if ip == e then .error .noAvailable
      else if ip + 1 < 2 ^ 32 then allocateIPLoop d e alloc (ip + 1) fuel
      else .error .noAvailable
    else if alloc.contains (ipString ip) then
      if ip == e then .error .noAvailable
      else if ip + 1 < 2 ^ 32 then allocateIPLoop d e alloc (ip + 1) fuel
      else .error .noAvailable
    else
      .ok (ipString ip, ipString ip :: alloc)

/-- `Driver.allocateIP` over the allocated-set component of the driver state:
fails when either pool bound is not a valid address, otherwise scans from the
pool start. -/
def allocateIP (d : DriverCfg) (alloc : List String) :
    Except AllocErr (String × List String) :=
  if !(addrValid d.ipPoolStart) || !(addrValid d.ipPoolEnd) then
    .error .poolNotConfigured
  else
    match d.ipPoolStart, d.ipPoolEnd with
    | some s, some e => allocateIPLoop d e alloc s (2 ^ 32)
    | _, _ => .error .poolNotConfigured

/-- `Driver.deallocateIP`: delete the key from the allocated map. -/
def deallocateIP (alloc : List String) (ip : String) : List String :=
  alloc.filter (fun s => !(s == ip))

/-- An address the scan refuses to hand out: the gateway, or an address whose
string is already in the allocated set. -/
def blockedAt (d : DriverCfg) (alloc : List String) (j : Nat) : Prop :=
  d.gatewayIP = some j ∨ alloc.contains (ipString j) = true

instance (d : DriverCfg) (alloc : List String) (j : Nat) :
    Decidable (blockedAt d alloc j) := by
  unfold blockedAt; infer_instance

theorem allocateIPLoop_ok_shape (d : DriverCfg) (e : Nat) (alloc : List String)
    (fuel ip : Nat) (s : String) (a : List String)
    (h : allocateIPLoop d e alloc ip fuel = .ok (s, a)) :
    alloc.contains s = false ∧ a = s :: alloc := by
  induction fuel generalizing ip with
  | zero => exact absurd h (by simp [allocateIPLoop])
  | succ fuel ih =>
    rw [allocateIPLoop] at h
    by_cases c1 : (d.subnet.isSome && !(subnetContains d.subnet ip)) = true
    · rw [if_pos c1] at h; exact absurd h (by simp)
    · rw [if_neg c1] at h
      by_cases c2 : (d.gatewayIP == some ip) = true
      · rw [if_pos c2] at h
        by_cases c4 : (ip == e) = true
        · rw [if_pos c4] at h; exact absurd h (by simp)
        · rw [if_neg c4] at h
          by_cases c5 : ip + 1 < 2 ^ 32
          · rw [if_pos c5] at h
            exact ih (ip + 1) h
          · rw [if_neg c5] at h; exact absurd h (by simp)
      · rw [if_neg c2] at h
        by_cases c3 : (alloc.contains (ipString ip)) = true
        · rw [if_pos c3] at h
          by_cases c4 : (ip == e) = true
          · rw [if_pos c4] at h; exact absurd h (by simp)
          · rw [if_neg c4] at h
            by_cases c5 : ip + 1 < 2 ^ 32
            · rw [if_pos c5] at h
              exact ih (ip + 1) h
            · rw [if_neg c5] at h; exact absurd h (by simp)
        · rw [if_neg c3] at h
          have hs : s = ipString ip ∧ a = ipString ip :: alloc := by
            have := h
            simp only [Except.ok.injEq, Prod.mk.injEq] at this
            exact ⟨this.1.symm, this.2.symm⟩
          refine ⟨?_, by rw [hs.2, hs.1]⟩
          rw [hs.1]
          simpa using c3

/-- Characterization of the `allocateIP` scan loop with sufficient fuel,
under a configured subnet containing the remaining range: either it returns
the string of the first address in `[ip, e]` that is neither the gateway nor
already allocated (consing it onto the allocated set), or every address in
`[ip, e]` is blocked and it fails with the no-available-IPs error. -/
theorem allocateIPLoop_spec (d : DriverCfg) (p : IpPrefix) (e : Nat)
    (alloc : List String) (hp : d.subnet = some p) (he : e < 2 ^ 32)
    (hce : p.containsIP e = true) (fuel ip : Nat) (hip : ip ≤ e)
    (hc : p.containsIP ip = true) (hfuel : e - ip < fuel) :
    (∃ k, ip ≤ k ∧ k ≤ e ∧ ¬ blockedAt d alloc k ∧
        allocateIPLoop d e alloc ip fuel = .ok (ipString k, ipString k :: alloc) ∧
        ∀ j, ip ≤ j → j < k → blockedAt d alloc j)
    ∨ ((∀ j, ip ≤ j → j ≤ e → blockedAt d alloc j) ∧
        allocateIPLoop d e alloc ip fuel = .error .noAvailable) := by
  induction fuel generalizing ip with
  | zero => omega
  | succ fuel ih =>
    have c1 : ¬ ((d.subnet.isSome && !(subnetContains d.subnet ip)) = true) := by
      simp [hp, subnetContains, hc]
    rw [allocateIPLoop, if_neg c1]
    by_cases c2 : (d.gatewayIP == some ip) = true
    · rw [if_pos c2]
      have hgw : d.gatewayIP = some ip := by simpa using c2
      by_cases c4 : (ip == e) = true
      · have hie : ip = e := by simpa using c4
        rw [if_pos c4]
        right
        refine ⟨?_, rfl⟩
        intro j h1 h2
        have : j = ip := by omega
        exact Or.inl (this ▸ hgw)
      · have hie : ¬ ip = e := by simpa using c4
        have hlt : ip + 1 < 2 ^ 32 := by omega
        rw [if_neg c4, if_pos hlt]
        have hc1 : p.containsIP (ip + 1) = true :=
          containsIP_of_between p hc hce (by omega) (by omega)
        rcases ih (ip + 1) (by omega) hc1 (by omega) with
          ⟨k, hk1, hk2, hk3, hk4, hk5⟩ | ⟨hall, heq⟩
        · left
          refine ⟨k, by omega, hk2, hk3, hk4, ?_⟩
          intro j h1 h2
          rcases Nat.eq_or_lt_of_le h1 with rfl | hlt2
          · exact Or.inl hgw
          · exact hk5 j (by omega) h2
        · right
          refine ⟨?_, heq⟩
          intro j h1 h2
          rcases Nat.eq_or_lt_of_le h1 with rfl | hlt2
          · exact Or.inl hgw
          · exact hall j (by omega) h2
    · rw [if_neg c2]
      have hgw : ¬ d.gatewayIP = some ip := by simpa using c2
      by_cases c3 : (alloc.contains (ipString ip)) = true
      · rw [if_pos c3]
        by_cases c4 : (ip == e) = true
        · have hie : ip = e := by simpa using c4
          rw [if_pos c4]
          right
          refine ⟨?_, rfl⟩
          intro j h1 h2
          have : j = ip := by omega
          exact Or.inr (this ▸ c3)
        · have hie : ¬ ip = e := by simpa using c4
          have hlt : ip + 1 < 2 ^ 32 := by omega
          rw [if_neg c4, if_pos hlt]
          have hc1 : p.containsIP (ip + 1) = true :=
            containsIP_of_between p hc hce (by omega) (by omega)
          rcases ih (ip + 1) (by omega) hc1 (by omega) with
            ⟨k, hk1, hk2, hk3, hk4, hk5⟩ | ⟨hall, heq⟩
          · left
            refine ⟨k, by omega, hk2, hk3, hk4, ?_⟩
            intro j h1 h2
            rcases Nat.eq_or_lt_of_le h1 with rfl | hlt2
            · exact Or.inr c3
            · exact hk5 j (by omega) h2
          · right
            refine ⟨?_, heq⟩
            intro j h1 h2
            rcases Nat.eq_or_lt_of_le h1 with rfl | hlt2
            · exact Or.inr c3
            · exact hall j (by omega) h2
      · rw [if_neg c3]
        left
        refine ⟨ip, le_refl ip, hip, ?_, rfl, by intro j h1 h2; omega⟩
        intro hb
        rcases hb with hb | hb
        · exact hgw hb
        · exact c3 hb

/-- Unpack the facts established by a successful `validateNetworkConfig`. -/
theorem validateNetworkConfig_facts (d : DriverCfg)
    (hv : validateNetworkConfig d = true) :
    ∃ p s e gw, d.subnet = some p ∧ d.ipPoolStart = some s ∧
      d.ipPoolEnd = some e ∧ d.gatewayIP = some gw ∧
      s < 2 ^ 32 ∧ e < 2 ^ 32 ∧ gw < 2 ^ 32 ∧
      p.containsIP s = true ∧ p.containsIP e = true ∧ p.containsIP gw = true ∧
      s ≤ e ∧ gw ≠ s := by
  unfold validateNetworkConfig at hv
  obtain ⟨nc, hnc⟩ : ∃ nc, d.networkConfig = some nc := by
    cases h : d.networkConfig
    · rw [h] at hv; exact absurd hv (by simp)
    · exact ⟨_, rfl⟩
  rw [hnc] at hv
  obtain ⟨p, hsub⟩ : ∃ p, d.subnet = some p := by
    cases h : d.subnet
    · rw [h] at hv; exact absurd hv (by simp)
    · exact ⟨_, rfl⟩
  obtain ⟨gw, hgw⟩ : ∃ gw, d.gatewayIP = some gw := by
    cases h : d.gatewayIP
    · rw [h] at hv; exact absurd hv (by simp)
    · exact ⟨_, rfl⟩
  obtain ⟨s, hs⟩ : ∃ s, d.ipPoolStart = some s := by
    cases h : d.ipPoolStart
    · rw [h, hgw] at hv; exact absurd hv (by simp [addrValid])
    · exact ⟨_, rfl⟩
  obtain ⟨e, he⟩ : ∃ e, d.ipPoolEnd = some e := by
    cases h : d.ipPoolEnd
    · rw [h, hgw, hs] at hv; exact absurd hv (by simp [addrValid])
    · exact ⟨_, rfl⟩
  rw [hsub, hgw, hs, he] at hv
  simp only [Bool.and_eq_true, Bool.not_eq_true', beq_eq_false_iff_ne, ne_eq,
    Option.isSome_some, addrValid, subnetContains, decide_eq_true_eq,
    Option.some.injEq] at hv
  refine ⟨p, s, e, gw, hsub, hs, he, hgw, ?_, ?_, ?_, ?_, ?_, ?_, ?_, ?_⟩ <;>
    tauto

theorem allocateIP_eq_loop (d : DriverCfg) (s0 e : Nat)
    (hps : d.ipPoolStart = some s0) (hpe : d.ipPoolEnd = some e)
    (h1 : s0 < 2 ^ 32) (h2 : e < 2 ^ 32) (alloc : List String) :
    allocateIP d alloc = allocateIPLoop d e alloc s0 (2 ^ 32) := by
  unfold allocateIP
  rw [hps, hpe, if_neg (by simp only [addrValid]; simp; omega)]

theorem allocateIP_ok_shape (d : DriverCfg) (alloc : List String)
    (s : String) (a : List String) (h : allocateIP d alloc = .ok (s, a)) :
    alloc.contains s = false ∧ a = s :: alloc := by
  unfold allocateIP at h
  by_cases c : (!(addrValid d.ipPoolStart) || !(addrValid d.ipPoolEnd)) = true
  · rw [if_pos c] at h; exact absurd h (by simp)
  · rw [if_neg c] at h
    cases hs : d.ipPoolStart with
    | none => rw [hs] at h; exact absurd h (by simp)
    | some s0 =>
      cases he : d.ipPoolEnd with
      | none => rw [hs, he] at h; exact absurd h (by simp)
      | some e =>
        rw [hs, he] at h
        exact allocateIPLoop_ok_shape d e alloc (2 ^ 32) s0 s a h

/-- Repeated allocation: perform `n` consecutive `allocateIP` calls, collecting
the returned addresses and threading the allocated set; stops early on error. -/
def allocateMany (d : DriverCfg) : Nat → List String → List String × List String
  | 0, alloc => ([], alloc)
  | n + 1, alloc =>
    match allocateIP d alloc with
    | .ok (s, a) =>
      let r := allocateMany d n a
      (s :: r.1, r.2)
    | .error _ => ([], alloc)

theorem allocateMany_props (d : DriverCfg) (n : Nat) (alloc : List String) :
    ((allocateMany d n alloc).1).Nodup ∧
      ∀ s ∈ (allocateMany d n alloc).1, alloc.contains s = false := by
  induction n generalizing alloc with
  | zero => simp [allocateMany]
  | succ n ih =>
    rw [allocateMany]
    cases hcall : allocateIP d alloc with
    | error err => simp
    | ok pr =>
      obtain ⟨s, a⟩ := pr
      obtain ⟨hcontains, hshape⟩ := allocateIP_ok_shape d alloc s a hcall
      subst hshape
      obtain ⟨hnodup, hmem⟩ := ih (s :: alloc)
      have hnotmem : s ∉ (allocateMany d n (s :: alloc)).1 := by
        intro hin
        have := hmem s hin
        simp [List.contains_cons] at this
      constructor
      · simpa using ⟨hnotmem, hnodup⟩
      · intro x hx
        simp only [List.mem_cons] at hx
        rcases hx with rfl | hx
        · exact hcontains
        · have := hmem x hx
          simp only [List.contains_cons, Bool.or_eq_false_iff] at this
          exact this.2

/-- C1: for a valid network configuration (pool inside the subnet,
pool-start ≤ pool-end), `allocateIP` hands out the string of the first
address of the pool range `[start, end]` that is neither the gateway nor
already allocated — every smaller address of the range being the gateway or
already allocated — and never returns an address beyond the pool end; when
every non-gateway address of the range is already allocated it fails with the
no-available-IPs error; and repeated calls return pairwise-distinct
addresses. -/
theorem allocateIP_walks_pool_in_order (d : DriverCfg)
    (s0 e : Nat) (hv : validateNetworkConfig d = true)
    (hps : d.ipPoolStart = some s0) (hpe : d.ipPoolEnd = some e) :
    (∀ alloc : List String,
      (∃ k, s0 ≤ k ∧ k ≤ e ∧ d.gatewayIP ≠ some k ∧
          alloc.contains (ipString k) = false ∧
          allocateIP d alloc = .ok (ipString k, ipString k :: alloc) ∧
          ∀ j, s0 ≤ j → j < k →
            d.gatewayIP = some j ∨ alloc.contains (ipString j) = true)
      ∨ ((∀ j, s0 ≤ j → j ≤ e →
            d.gatewayIP = some j ∨ alloc.contains (ipString j) = true) ∧
          allocateIP d alloc = .error .noAvailable))
    ∧ (∀ n alloc, ((allocateMany d n alloc).1).Nodup) := by
  obtain ⟨p', s', e', gw, hsub, hs', he', hgw, hslt, helt, hgwlt, hcs, hce, hcgw,
    hsle, hgwne⟩ := validateNetworkConfig_facts d hv
  rw [hps] at hs'
  rw [hpe] at he'
  injection hs' with hs2
  injection he' with he2
  subst hs2
  subst he2
  constructor
  · intro alloc
    have heq := allocateIP_eq_loop d s0 e hps hpe hslt helt alloc
    rcases allocateIPLoop_spec d p' e alloc hsub helt hce (2 ^ 32) s0 hsle hcs
      (by omega) with
      ⟨k, hk1, hk2, hk3, hk4, hk5⟩ | ⟨hall, herr⟩
    · left
      refine ⟨k, hk1, hk2, ?_, ?_, heq ▸ hk4, fun j h1 h2 => hk5 j h1 h2⟩
      · intro hk; exact hk3 (Or.inl hk)
      · by_cases hmem : alloc.contains (ipString k) = true
        · exact absurd (Or.inr hmem) hk3
        · simpa using hmem
    · right
      exact ⟨fun j h1 h2 => hall j h1 h2, heq ▸ herr⟩
  · intro n alloc
    exact (allocateMany_props d n alloc).1

/-- `net.NetworkInterfaceBridgeConfig` (virt/net): per-task bridge options. -/
structure NetworkInterfaceBridgeConfig where
  name : String
  ports : List String
  staticIP : String
  gateway : String
  netmask : String
  dns : List String
deriving DecidableEq, Repr

/-- `net.NetworkInterfaceConfig`. -/
structure NetworkInterfaceConfig where
  bridge : Option NetworkInterfaceBridgeConfig
deriving DecidableEq, Repr

/-- The fields of `domain.Config` that the modelled driver operations read. -/
structure DomainConfig where
  name : String
  networkInterfaces : List NetworkInterfaceConfig
deriving DecidableEq, Repr

/-- The fields of `cloudhypervisor.VMProcess` relevant to the modelled
operations. -/
structure VMProc where
  name : String
  ip : String
  mac : String
  tapName : String
deriving DecidableEq, Repr

/-- Digits-only decimal parse used by `atoi`. -/
def parseDigits (ds : List Char) : Option Nat :=
  if ds.isEmpty then none
  else if ds.all isDigitCh then
    some (ds.foldl (fun a c => a * 10 + digitVal c) 0)
  else none

/-- `strconv.Atoi`: an optional sign followed by decimal digits (overflow of
the netmask values 0..32 cannot occur, so the int-range check is omitted). -/
def atoi (s : String) : Option Int :=
  match s.data with
  | [] => none
  | '-' :: ds => (parseDigits ds).map (fun n => -(n : Int))
  | '+' :: ds => (parseDigits ds).map (fun n => (n : Int))
  | ds => (parseDigits ds).map (fun n => (n : Int))

/-- The derived per-VM network settings (`cloudhypervisor.networkSettings`). -/
structure NetworkSettings where
  address : String
  gateway : String
  cidrBits : Int
  nameservers : List String
  interfaceName : String
deriving DecidableEq, Repr

/-- `Driver.deriveNetworkSettings`: build the per-VM settings.  Source order:
seed with defaults (eth0, cidr −1, Google nameservers); take the process IP
when present and non-empty; take the parsed subnet prefix length; take the
parsed gateway, falling back to the raw configured gateway string; then apply
the task bridge overrides (static IP, gateway, netmask when it parses to
0..32, DNS list); default the prefix length to 24; report false when no
address was resolved.  `strconv.Atoi` for the netmask is modelled by
`atoi`.  Each paragraph of the Go method body is one `dns*` step below,
composed in source order by `deriveNetworkSettings`; the seed record: -/
def dnsDefaults : NetworkSettings :=
  { address := "", gateway := "", cidrBits := -1,
    nameservers := ["8.8.8.8", "8.8.4.4"], interfaceName := "eth0" }

/-- The process-IP paragraph of `deriveNetworkSettings`: take the reported
address when the process record is present with a non-empty IP. -/
def dnsProcStep (proc : Option VMProc) (s : NetworkSettings) : NetworkSettings :=
  match proc with
  | some pr => if pr.ip ≠ "" then { s with address := pr.ip } else s
  | none => s

/-- The subnet paragraph: take the parsed prefix length when valid. -/
def dnsSubnetStep (d : DriverCfg) (s : NetworkSettings) : NetworkSettings :=
  match d.subnet with
  | some p => { s with cidrBits := (p.bits : Int) }
  | none => s

/-- The gateway paragraph: the parsed gateway when valid, else the raw
configured gateway string when non-empty. -/
def dnsGatewayStep (d : DriverCfg) (s : NetworkSettings) : NetworkSettings :=
  match d.gatewayIP with
  | some gw => { s with gateway := ipString gw }
  | none =>
    match d.networkConfig with
    | some nc =>
      if nc.gateway ≠ "" then { s with gateway := nc.gateway } else s
    | none => s

/-- Static-IP override line of the task-bridge paragraph. -/
def dnsBridgeStatic (br : NetworkInterfaceBridgeConfig) (s : NetworkSettings) :
    NetworkSettings :=
  if br.staticIP ≠ "" then { s with address := br.staticIP } else s

/-- Gateway override line of the task-bridge paragraph. -/
def dnsBridgeGatewayOv (br : NetworkInterfaceBridgeConfig)
    (s : NetworkSettings) : NetworkSettings :=
  if br.gateway ≠ "" then { s with gateway := br.gateway } else s

/-- Netmask override line of the task-bridge paragraph: `strconv.Atoi` on
the netmask, accepted when within 0..32, otherwise a warning and no
change. -/
def dnsBridgeNetmask (br : NetworkInterfaceBridgeConfig)
    (s : NetworkSettings) : NetworkSettings :=
  if br.netmask ≠ "" then
    match atoi br.netmask with
    | some bits =>
      if 0 ≤ bits ∧ bits ≤ 32 then { s with cidrBits := bits } else s
    | none => s
  else s

/-- DNS override line of the task-bridge paragraph. -/
def dnsBridgeDNS (br : NetworkInterfaceBridgeConfig) (s : NetworkSettings) :
    NetworkSettings :=
  if br.dns ≠ [] then { s with nameservers := br.dns } else s

/-- The body of the task-bridge override paragraph, for a present bridge
block: static IP, gateway, netmask and DNS override lines in source order. -/
def dnsBridgeApply (br : NetworkInterfaceBridgeConfig) (s : NetworkSettings) :
    NetworkSettings :=
  dnsBridgeDNS br (dnsBridgeNetmask br (dnsBridgeGatewayOv br (dnsBridgeStatic br s)))

/-- The task-bridge override paragraph: applies when the configuration is
present with a first network interface carrying a bridge block. -/
def dnsBridgeStep (config : Option DomainConfig) (s : NetworkSettings) :
    NetworkSettings :=
  match config with
  | some cfg =>
    match cfg.networkInterfaces.head? with
    | some ni =>
      match ni.bridge with
      | some br => dnsBridgeApply br s
      | none => s
    | none => s
  | none => s

/-- The closing prefix-length default paragraph. -/
def dnsCidrDefaultStep (s : NetworkSettings) : NetworkSettings :=
  if s.cidrBits < 0 then { s with cidrBits := 24 } else s

def deriveNetworkSettings (d : DriverCfg) (config : Option DomainConfig)
    (proc : Option VMProc) : NetworkSettings × Bool :=
  let settings : NetworkSettings :=
    dnsCidrDefaultStep
      (dnsBridgeStep config
        (dnsGatewayStep d (dnsSubnetStep d (dnsProcStep proc dnsDefaults))))
  if settings.address = "" then (settings, false) else (settings, true)

/-- Lower-case hex digit character for `n < 16`. -/
def hexDigitCh (n : Nat) : Char :=
  if n < 10 then Char.ofNat (48 + n) else Char.ofNat (87 + n)

/-- Two-digit lower-case hex rendering of a byte (`%02x`). -/
def byteHex (b : Nat) : String :=
  String.mk [hexDigitCh (b / 16 % 16), hexDigitCh (b % 16)]

/-- `Driver.generateMAC` (cloudhypervisor driver): fold
`hash = hash*31 + int(c)` over the runes of the VM name (Go `int` arithmetic,
modelled as the 64-bit two's-complement bit pattern, i.e. mod `2^64`; the
byte conversions `byte(hash>>16)`, `byte(hash>>8)`, `byte(hash)` extract the
corresponding bit-pattern bytes), then format with the `52:54:00` prefix. -/
def generateMAC (vmName : String) : String :=
  let hash := vmName.data.foldl (fun h c => (h * 31 + c.toNat) % 2 ^ 64) 0
  "52:54:00:" ++ byteHex (hash / 2 ^ 16 % 256) ++ ":" ++
    byteHex (hash / 2 ^ 8 % 256) ++ ":" ++ byteHex (hash % 256)

/-- `Controller.generateDeterministicMAC` (chnet/controller.go): fold
`hash = hash*31 + int(char)` over the runes of the domain name (same 64-bit
model as `generateMAC`), then format with the `52:54:00` prefix. -/
def generateDeterministicMAC (domainName : String) : String :=
  let hash := domainName.data.foldl (fun h c => (h * 31 + c.toNat) % 2 ^ 64) 0
  "52:54:00:" ++ byteHex (hash / 2 ^ 16 % 256) ++ ":" ++
    byteHex (hash / 2 ^ 8 % 256) ++ ":" ++ byteHex (hash % 256)

/-- TAP-name generation in `Driver.CreateDomain`: the configured prefix
concatenated with the first 8 characters of the hex SHA-256 digest of
name+launch-timestamp.  `digestHex` stands for that 64-character digest
string (`fmt.Sprintf("%x", sha256.Sum256(...))`). -/
def tapNameOf (tapPrefix digestHex : String) : String :=
  tapPrefix ++ String.mk (digestHex.data.take 8)

/-- The registry and IP-allocation state of `cloudhypervisor.Driver`
(`processes` keyed by VM name, `allocatedIPs` keyed by IP string). -/
structure DriverState where
  processes : List VMProc
  allocatedIPs : List String
deriving DecidableEq, Repr

/-- Outcomes of the effectful creation steps of `Driver.CreateDomain`, whose
implementations live outside the modelled state. -/
structure StepOutcomes where
  mkdirOk : Bool
  cloudInitOk : Bool
  setupNetworkingOk : Bool
  virtiofsdOk : Bool
  buildVMConfigOk : Bool
  addVFIODevicesOk : Bool
  startCHProcessOk : Bool
  createAndBootOk : Bool
deriving DecidableEq, Repr

/-- Step outcomes with every step succeeding. -/
def stepsAllOk : StepOutcomes :=
  { mkdirOk := true, cloudInitOk := true, setupNetworkingOk := true,
    virtiofsdOk := true, buildVMConfigOk := true, addVFIODevicesOk := true,
    startCHProcessOk := true, createAndBootOk := true }

/-- Errors returned by `Driver.CreateDomain`, one per return path. -/
inductive CreateErr
  | alreadyExists
  | workDirFailed
  | staticIPOutsideSubnet
  | staticIPAlreadyAllocated
  | allocateIPFailed (e : AllocErr)
  | cloudInitFailed
  | setupNetworkingFailed
  | virtiofsdFailed
  | buildVMConfigFailed
  | addVFIODevicesFailed
  | startCHProcessFailed
  | createAndBootFailed
deriving DecidableEq, Repr

/-- The task-supplied static IP, when the first network interface has a
bridge block with a non-empty `static_ip` (the condition guarding the static
path in `Driver.CreateDomain`). -/
def staticIPOf (config : DomainConfig) : Option String :=
  match config.networkInterfaces.head? with
  | some ni =>
    match ni.bridge with
    | some br => if br.staticIP ≠ "" then some br.staticIP else none
    | none => none
  | none => none

/-- The IP-acquisition block of `Driver.CreateDomain`: when the task supplies
a static IP, reject one that `netip.ParseAddr` parses to an address not
contained in a configured subnet (an IPv6 parse is never contained in the
IPv4 subnet), reject an already-allocated string, and otherwise mark it
allocated; without a static IP, allocate from the pool. -/
def allocForCreate (d : DriverCfg) (config : DomainConfig)
    (alloc : List String) : Except CreateErr (String × List String) :=
  match staticIPOf config with
  | some sip =>
    if (match d.subnet, parseNetipAddr sip with
        | some p, some a => !(netipPrefixContains p a)
        | _, _ => false) then
      .error .staticIPOutsideSubnet
    else if alloc.contains sip then
      .error .staticIPAlreadyAllocated
    else .ok (sip, sip :: alloc)
  | none =>
    match allocateIP d alloc with
    | .ok r => .ok r
    | .error e => .error (.allocateIPFailed e)

/-- `Driver.CreateDomain`, modelled over the registry and IP-allocation
state.  Modelled from the spec: the effectful steps (work-directory creation,
cloud-init ISO, TAP setup, virtiofsd launch, VM-config build, VFIO attach,
CH process start, boot API call) are implemented outside src and are treated
as opaque steps parametrized by their outcomes (`StepOutcomes`); per the
spec they and the cleanup helpers (`cleanupNetworking`, `stopVirtiofsd`,
`cleanupProcess`) do not touch the registry or the allocated-IP set.  Source
order: duplicate-name check; work directory; static-IP validation or pool
allocation (`allocForCreate`); then the effect steps, each failure
deallocating the IP before returning; on success register the process. -/
def CreateDomain (d : DriverCfg) (steps : StepOutcomes) (config : DomainConfig)
    (digestHex : String) (st : DriverState) : Option CreateErr × DriverState :=
  if st.processes.any (fun pr => pr.name == config.name) then
    (some .alreadyExists, st)
  else if !(steps.mkdirOk) then (some .workDirFailed, st)
  else
    match allocForCreate d config st.allocatedIPs with
    | .error e => (some e, st)
    | .ok (ip, alloc1) =>
      if !(steps.cloudInitOk) then
        (some .cloudInitFailed, { st with allocatedIPs := deallocateIP alloc1 ip })
      else if !(steps.setupNetworkingOk) then
        (some .setupNetworkingFailed, { st with allocatedIPs := deallocateIP alloc1 ip })
      else if !(steps.virtiofsdOk) then
        (some .virtiofsdFailed, { st with allocatedIPs := deallocateIP alloc1 ip })
      else if !(steps.buildVMConfigOk) then
        (some .buildVMConfigFailed, { st with allocatedIPs := deallocateIP alloc1 ip })
      else if !(steps.addVFIODevicesOk) then
        (some .addVFIODevicesFailed, { st with allocatedIPs := deallocateIP alloc1 ip })
      else if !(steps.startCHProcessOk) then
        (some .startCHProcessFailed, { st with allocatedIPs := deallocateIP alloc1 ip })
      else if !(steps.createAndBootOk) then
        (some .createAndBootFailed, { st with allocatedIPs := deallocateIP alloc1 ip })
      else
        (none,
          { processes :=
              { name := config.name, ip := ip, mac := generateMAC config.name,
                tapName := tapNameOf
                  (match d.networkConfig with
                   | some nc => nc.tapPrefix
                   | none => "") digestHex } :: st.processes,
            allocatedIPs := alloc1 })

/-- A firewall rule: table, chain and argument list.  This is the tuple
recorded per rule in `TeardownSpec.IPTablesRules` (`rule[0]` = table,
`rule[1]` = chain, `rule[2:]` = arguments). -/
structure IptRule where
  table : String
  chain : String
  args : List String
deriving DecidableEq, Repr

/-- `iptables.Delete` over the host rule list (a multiset of installed
rules): deleting an absent rule is an error ("does a matching rule exist in
that chain?"); deleting a present rule removes one instance. -/
def iptablesDelete (host : List IptRule) (r : IptRule) :
    List IptRule × Option String :=
  if host.contains r then (host.erase r, none)
  else (host, some "no matching rule exists in that chain")

/-- `iptables.DeleteIfExists` (the go-iptables call used by
`Controller.VMTerminatedTeardown`): delete the rule when present; an absent
rule is not an error.  Host-tool failures are outside the model. -/
def iptablesDeleteIfExists (host : List IptRule) (r : IptRule) :
    List IptRule × Option String :=
  if host.contains r then iptablesDelete host r else (host, none)

/-- The rules component of `net.TeardownSpec`. -/
structure TeardownSpec where
  iptablesRules : List IptRule
deriving DecidableEq, Repr

/-- `Controller.VMTerminatedTeardown`: a nil request or teardown spec is a
no-op; otherwise walk the recorded rules deleting each with
`DeleteIfExists`, collecting (never short-circuiting on) any errors. -/
def VMTerminatedTeardown (host : List IptRule) (req : Option TeardownSpec) :
    List IptRule × List String :=
  match req with
  | none => (host, [])
  | some spec =>
    spec.iptablesRules.foldl
      (fun acc r =>
        let step := iptablesDeleteIfExists acc.1 r
        (step.1, acc.2 ++ step.2.toList))
      (host, [])

/-- ASCII lower-casing of one character; models `strings.ToLower` on the
ASCII vendor/device hex identifiers compared by the allowlist matcher. -/
def charToLower (c : Char) : Char :=
  if 'A' ≤ c ∧ c ≤ 'Z' then Char.ofNat (c.toNat + 32) else c

/-- ASCII `strings.ToLower`. -/
def strToLower (s : String) : String := String.mk (s.data.map charToLower)

/-- Modelled from the spec: `matchesAllowlist`, the VFIO allowlist matcher,
whose implementation file is absent from src (only its test table
`TestMatchesAllowlist` is present).  Per the spec, an entry matches the
device's `vendor:device` pair exactly or via a `vendor:*` wildcard,
case-insensitively; per the test table, no entry of an empty allowlist
matches, so the matcher returns false for it. -/
def matchesAllowlist (vendor device : String) (allowlist : List String) : Bool :=
  let deviceID := strToLower (vendor ++ ":" ++ device)
  let wildcard := strToLower vendor ++ ":*"
  allowlist.any fun entry =>
    let e := strToLower entry
    e == deviceID || e == wildcard

/-- Modelled from the spec: the allowlist gate inside
`VFIOManager.ValidateDevices` — an empty (absent) allowlist permits every
device; a non-empty allowlist delegates to `matchesAllowlist`. -/
def deviceAllowed (vendor device : String) (allowlist : List String) : Bool :=
  allowlist.isEmpty || matchesAllowlist vendor device allowlist

/-- The only error either teardown entry point produces in the modelled
state: the VM name is not registered. -/
inductive DomainErr
  | notFound
deriving DecidableEq, Repr

/-- `Driver.StopDomain`: error when the name is not registered; otherwise
attempt graceful shutdown, force-killing the OS process on failure (both
outside the modelled state), and return nil with registry and allocation
untouched. -/
def StopDomain (name : String) (st : DriverState) : Option DomainErr × DriverState :=
  if st.processes.any (fun pr => pr.name == name) then (none, st)
  else (some .notFound, st)

/-- `Driver.DestroyDomain`: error when the name is not registered; otherwise
shut down and clean up the process (outside the modelled state), deallocate
the recorded IP and delete the registry entry. -/
def DestroyDomain (name : String) (st : DriverState) : Option DomainErr × DriverState :=
  match st.processes.find? (fun pr => pr.name == name) with
  | none => (some .notFound, st)
  | some proc =>
    (none,
      { processes := st.processes.filter (fun pr => !(pr.name == name)),
        allocatedIPs := deallocateIP st.allocatedIPs proc.ip })

/-- Example driver configuration: subnet 10.0.0.0/30 (167772160), gateway
10.0.0.1, pool 10.0.0.2 – 10.0.0.3. -/
def cfgEx : DriverCfg :=
  { networkConfig := some { bridge := "br0", gateway := "10.0.0.1", tapPrefix := "tap" },
    subnet := some { addr := 167772160, bits := 30 },
    gatewayIP := some 167772161,
    ipPoolStart := some 167772162,
    ipPoolEnd := some 167772163 }

/-- Example driver configuration matching the spec scenario: subnet
192.168.254.0/24 (3232300544), gateway 192.168.254.1, pool
192.168.254.10 – 192.168.254.200. -/
def cfg254 : DriverCfg :=
  { networkConfig := some { bridge := "br0", gateway := "192.168.254.1", tapPrefix := "tap" },
    subnet := some { addr := 3232300544, bits := 24 },
    gatewayIP := some 3232300545,
    ipPoolStart := some 3232300554,
    ipPoolEnd := some 3232300744 }

/-- Task configuration with a static IP on its bridge block. -/
def domainCfgStatic (sip : String) : DomainConfig :=
  { name := "vm1",
    networkInterfaces :=
      [{ bridge := some { name := "br0", ports := [], staticIP := sip,
                          gateway := "", netmask := "", dns := [] } }] }

/-- Task configuration without a network interface (pool allocation path). -/
def domainCfgPool : DomainConfig := { name := "vm1", networkInterfaces := [] }

/-- Empty driver state. -/
def emptyState : DriverState := { processes := [], allocatedIPs := [] }

/-- A registered example process. -/
def procEx : VMProc :=
  { name := "vm1", ip := "10.0.0.2", mac := "", tapName := "" }

/-- State with `procEx` registered and its IP allocated. -/
def stWithVM : DriverState :=
  { processes := [procEx], allocatedIPs := ["10.0.0.2"] }

/-- Step outcomes failing at the cloud-init step. -/
def stepsFailCloudInit : StepOutcomes := { stepsAllOk with cloudInitOk := false }

/-- The bridge override block of the repository's own
TestDeriveNetworkSettingsOverrides. -/
def brOverride : NetworkInterfaceBridgeConfig :=
  { name := "", ports := [], staticIP := "10.0.0.50", gateway := "10.0.0.1",
    netmask := "25", dns := ["1.1.1.1", "9.9.9.9"] }

/-- Task configuration carrying `brOverride`. -/
def cfgOverride : DomainConfig :=
  { name := "vm1", networkInterfaces := [{ bridge := some brOverride }] }

/-- Process with a VMM-reported IP, as in the override test. -/
def procReported : VMProc :=
  { name := "vm1", ip := "192.168.254.15", mac := "", tapName := "" }

/-- The first-interface bridge block of a task configuration. -/
def bridgeOf (config : DomainConfig) : Option NetworkInterfaceBridgeConfig :=
  match config.networkInterfaces.head? with
  | some ni => ni.bridge
  | none => none

/-- Example firewall rule. -/
def ruleEx : IptRule :=
  { table := "nat", chain := "NOMAD_CH_PRT",
    args := ["-d", "10.0.0.2", "-p", "tcp", "--dport", "8080", "-j", "DNAT"] }

/-- A 64-character stand-in for a SHA-256 hex digest. -/
def digest64 : String := String.mk (List.replicate 64 'a')

theorem filter_ne_of_not_contains (alloc : List String) (ip : String)
    (h : alloc.contains ip = false) :
    alloc.filter (fun s => !(s == ip)) = alloc := by
  induction alloc with
  | nil => rfl
  | cons x xs ih =>
    simp only [List.contains_cons, Bool.or_eq_false_iff] at h
    have h2 : (x == ip) = false := by
      simp only [beq_eq_false_iff_ne] at h ⊢
      exact fun hx => h.1 hx.symm
    rw [List.filter_cons, if_pos (by simp [h2]), ih h.2]

theorem deallocate_fresh (alloc : List String) (ip : String)
    (h : alloc.contains ip = false) : deallocateIP (ip :: alloc) ip = alloc := by
  unfold deallocateIP
  rw [List.filter_cons, if_neg (by simp), filter_ne_of_not_contains alloc ip h]

theorem contains_deallocate (alloc : List String) (ip : String) :
    (deallocateIP alloc ip).contains ip = false := by
  induction alloc with
  | nil => rfl
  | cons x xs ih =>
    unfold deallocateIP at ih ⊢
    rw [List.filter_cons]
    by_cases hx : (x == ip) = true
    · rw [if_neg (by simp [hx])]
      exact ih
    · rw [if_pos (by simp [Bool.not_eq_true _ ▸ hx])]
      have hxi : ¬ ip = x := fun hh => hx (by simp [hh])
      simp [List.contains_cons, hxi, ih]

theorem allocForCreate_ok_shape (d : DriverCfg) (config : DomainConfig)
    (alloc : List String) (ip : String) (a : List String)
    (h : allocForCreate d config alloc = .ok (ip, a)) :
    alloc.contains ip = false ∧ a = ip :: alloc := by
  unfold allocForCreate at h
  split at h
  · split at h
    · exact absurd h (by simp)
    · split at h
      · exact absurd h (by simp)
      · rename_i hc2
        simp only [Except.ok.injEq, Prod.mk.injEq] at h
        obtain ⟨h1, h2⟩ := h
        subst h1
        exact ⟨by simpa using hc2, h2.symm⟩
  · split at h
    · rename_i r hcall
      have hr : r = (ip, a) := by simpa using h
      subst hr
      exact allocateIP_ok_shape d alloc ip a hcall
    · exact absurd h (by simp)

/-- C2 counterexample: when the VM name is already registered, CreateDomain
returns an error, yet an entry for the VM name is still present in the
registry afterwards — so "no entry for the VM name is present afterwards"
fails on the duplicate-name error path. -/
theorem createDomain_error_entry_remains :
    (CreateDomain cfgEx stepsAllOk domainCfgPool "" stWithVM).1 =
      some CreateErr.alreadyExists ∧
    ((CreateDomain cfgEx stepsAllOk domainCfgPool "" stWithVM).2.processes.any
      (fun pr => pr.name == "vm1")) = true := by
  decide

/-- C2 (amended): whenever CreateDomain returns an error, every step
completed before the failing step has been reversed: the IP allocated for
the VM (pool-allocated or static) has been removed again, and the driver
state — allocated set and process registry — equals the pre-call state (in
particular no new registry entry for the VM name was added; a pre-existing
entry from the duplicate-name rejection is untouched). -/
theorem createDomain_error_rolls_back (d : DriverCfg) (steps : StepOutcomes)
    (config : DomainConfig) (digestHex : String) (st : DriverState)
    (e : CreateErr) (st' : DriverState)
    (h : CreateDomain d steps config digestHex st = (some e, st')) :
    st' = st := by
  unfold CreateDomain at h
  split at h
  · simp only [Prod.mk.injEq] at h
    exact h.2.symm
  · split at h
    · simp only [Prod.mk.injEq] at h
      exact h.2.symm
    · split at h
      · simp only [Prod.mk.injEq] at h
        exact h.2.symm
      · rename_i ip alloc1 hcall
        obtain ⟨hfree, hshape⟩ :=
          allocForCreate_ok_shape d config st.allocatedIPs ip alloc1 hcall
        subst hshape
        have hrb : deallocateIP (ip :: st.allocatedIPs) ip = st.allocatedIPs :=
          deallocate_fresh _ _ hfree
        repeat' split at h
        all_goals injection h with h1 h2
        all_goals try cases h1
        all_goals exact h2.symm.trans (by rw [hrb])

/-- Witness for the amended C2 at a concrete failing creation. -/
theorem createDomain_error_rolls_back_witness :
    CreateDomain cfgEx stepsFailCloudInit domainCfgPool "" emptyState =
      (some CreateErr.cloudInitFailed, emptyState) ∧ emptyState = emptyState :=
  ⟨by decide,
    createDomain_error_rolls_back cfgEx stepsFailCloudInit domainCfgPool ""
      emptyState CreateErr.cloudInitFailed emptyState (by decide)⟩

/-- Witness for C1 at the example configuration: two consecutive allocations
from the empty set yield distinct addresses. -/
theorem allocateIP_walks_pool_in_order_witness :
    validateNetworkConfig cfgEx = true ∧
    cfgEx.ipPoolStart = some 167772162 ∧ cfgEx.ipPoolEnd = some 167772163 ∧
    ((allocateMany cfgEx 2 []).1).Nodup :=
  ⟨by decide, rfl, rfl,
    (allocateIP_walks_pool_in_order cfgEx 167772162 167772163
      (by decide) rfl rfl).2 2 []⟩

theorem deleteIfExists_no_error (host : List IptRule) (r : IptRule) :
    (iptablesDeleteIfExists host r).2 = none := by
  unfold iptablesDeleteIfExists iptablesDelete
  by_cases hc : host.contains r = true
  · rw [if_pos hc, if_pos hc]
  · rw [if_neg hc]

theorem teardown_fold_no_error (rules : List IptRule) :
    ∀ (host : List IptRule) (errs : List String),
      (rules.foldl
        (fun acc r =>
          let step := iptablesDeleteIfExists acc.1 r
          (step.1, acc.2 ++ step.2.toList))
        (host, errs)).2 = errs := by
  induction rules with
  | nil => intro host errs; rfl
  | cons r rs ih =>
    intro host errs
    rw [List.foldl_cons]
    have hstep : (iptablesDeleteIfExists host r).2 = none :=
      deleteIfExists_no_error host r
    simp only [hstep, Option.toList_none, List.append_nil]
    exact ih _ errs

/-- C3: `VMTerminatedTeardown` deletes each recorded rule with
delete-if-present semantics: deleting an absent rule is not an error, the
teardown of any spec returns no error, and in particular a second invocation
with the same spec after a successful first invocation returns no error. -/
theorem teardown_delete_if_present_idempotent :
    (∀ (host : List IptRule) (r : IptRule), host.contains r = false →
      iptablesDeleteIfExists host r = (host, none))
    ∧ (∀ (host : List IptRule) (req : Option TeardownSpec),
        (VMTerminatedTeardown host req).2 = [])
    ∧ (∀ (host : List IptRule) (spec : TeardownSpec),
        (VMTerminatedTeardown
          ((VMTerminatedTeardown host (some spec)).1) (some spec)).2 = []) := by
  refine ⟨?_, ?_, ?_⟩
  · intro host r hr
    unfold iptablesDeleteIfExists
    rw [if_neg (by rw [hr]; simp)]
  · intro host req
    cases req with
    | none => rfl
    | some spec => exact teardown_fold_no_error spec.iptablesRules host []
  · intro host spec
    exact teardown_fold_no_error spec.iptablesRules _ []

/-- Witness for C3 at a concrete host and rule. -/
theorem teardown_delete_if_present_idempotent_witness :
    ([] : List IptRule).contains ruleEx = false ∧
    iptablesDeleteIfExists [] ruleEx = ([], none) ∧
    (VMTerminatedTeardown
      ((VMTerminatedTeardown [ruleEx] (some { iptablesRules := [ruleEx] })).1)
      (some { iptablesRules := [ruleEx] })).2 = [] :=
  ⟨by decide,
    teardown_delete_if_present_idempotent.1 [] ruleEx (by decide),
    teardown_delete_if_present_idempotent.2.2 [ruleEx] { iptablesRules := [ruleEx] }⟩

/-- C10: the lifecycle driver's `generateMAC` and the network controller's
`generateDeterministicMAC` return the same MAC string for every VM name:
both fold the same 31-multiplier hash over the name and format the low three
bytes with the `52:54:00` prefix, so the MAC the controller derives for
DHCP-lease lookup always equals the MAC the driver assigned; the first nine
characters are always `52:54:00:`. -/
theorem generateMAC_eq_generateDeterministicMAC (vmName : String) :
    generateMAC vmName = generateDeterministicMAC vmName ∧
    (generateMAC vmName).data.take 9 = "52:54:00:".data := by
  constructor
  · rfl
  · show (String.data ("52:54:00:" ++ _ ++ ":" ++ _ ++ ":" ++ _)).take 9 = _
    simp only [String.data_append, List.append_assoc]
    rw [show (9 : Nat) = "52:54:00:".data.length from rfl, List.take_left]

/-- C4 counterexample: with a VMM-process-reported address and a task
static-IP override both present, the derived address is the override — not
the process address — matching the repository's own
TestDeriveNetworkSettingsOverrides and refuting the claimed proc-IP-highest
precedence. -/
theorem deriveNetworkSettings_override_beats_proc :
    procReported.ip = "192.168.254.15" ∧
    (deriveNetworkSettings cfg254 (some cfgOverride) (some procReported)).1.address
      = "10.0.0.50" ∧
    ¬ ((deriveNetworkSettings cfg254 (some cfgOverride) (some procReported)).1.address
      = procReported.ip) := by
  decide

/-- The driver-wide default gateway string: the parsed gateway when valid,
else the raw configured gateway string (empty when no configuration). -/
def defaultGateway (d : DriverCfg) : String :=
  match d.gatewayIP with
  | some gw => ipString gw
  | none =>
    match d.networkConfig with
    | some nc => nc.gateway
    | none => ""

/-- The driver-wide default prefix length: the parsed subnet's bits when the
subnet is valid, else the closing default of 24. -/
def defaultCidr (d : DriverCfg) : Int :=
  match d.subnet with
  | some p => (p.bits : Int)
  | none => 24

/-- The per-task netmask override value: the bridge netmask when non-empty
and `strconv.Atoi` yields a prefix length within 0..32 (otherwise the
override is dropped with a warning). -/
def netmaskOverride (br : NetworkInterfaceBridgeConfig) : Option Int :=
  if br.netmask ≠ "" then
    match atoi br.netmask with
    | some bits => if 0 ≤ bits ∧ bits ≤ 32 then some bits else none
    | none => none
  else none

theorem netmaskOverride_nonneg (br : NetworkInterfaceBridgeConfig) (bits : Int)
    (h : netmaskOverride br = some bits) : 0 ≤ bits := by
  unfold netmaskOverride at h
  split at h
  · split at h
    · split at h
      · rename_i hb
        injection h with h1
        rw [← h1]
        exact hb.1
      · cases h
    · cases h
  · cases h

theorem cidrResolve (ov : Option Int) (sub : Option IpPrefix) :
    (∀ b, ov = some b → 0 ≤ b) →
    (if ((match ov with
        | some bits => bits
        | none =>
          match sub with
          | some p => (p.bits : Int)
          | none => (-1 : Int)) : Int) < 0 then (24 : Int)
      else
        match ov with
        | some bits => bits
        | none =>
          match sub with
          | some p => (p.bits : Int)
          | none => (-1 : Int)) =
      match ov with
      | some bits => bits
      | none =>
        match sub with
        | some p => (p.bits : Int)
        | none => (24 : Int) := by
  intro hov
  cases ov with
  | some b =>
    have hb := hov b rfl
    show (if b < 0 then (24 : Int) else b) = b
    rw [if_neg (by omega)]
  | none =>
    cases sub with
    | some p =>
      show (if (p.bits : Int) < 0 then (24 : Int) else (p.bits : Int)) =
        (p.bits : Int)
      rw [if_neg (by omega)]
    | none =>
      show (if (-1 : Int) < 0 then (24 : Int) else (-1 : Int)) = (24 : Int)
      norm_num

theorem dnsProcStep_address (pr : VMProc) (s : NetworkSettings) :
    (dnsProcStep (some pr) s).address =
      if pr.ip = "" then s.address else pr.ip := by
  show (if pr.ip ≠ "" then { s with address := pr.ip } else s).address = _
  split_ifs <;> simp_all

theorem dnsProcStep_gateway (pr : VMProc) (s : NetworkSettings) :
    (dnsProcStep (some pr) s).gateway = s.gateway := by
  show (if pr.ip ≠ "" then { s with address := pr.ip } else s).gateway = _
  split_ifs <;> rfl

theorem dnsProcStep_nameservers (pr : VMProc) (s : NetworkSettings) :
    (dnsProcStep (some pr) s).nameservers = s.nameservers := by
  show (if pr.ip ≠ "" then { s with address := pr.ip } else s).nameservers = _
  split_ifs <;> rfl

theorem dnsSubnetStep_address (d : DriverCfg) (s : NetworkSettings) :
    (dnsSubnetStep d s).address = s.address := by
  unfold dnsSubnetStep
  cases d.subnet <;> rfl

theorem dnsSubnetStep_gateway (d : DriverCfg) (s : NetworkSettings) :
    (dnsSubnetStep d s).gateway = s.gateway := by
  unfold dnsSubnetStep
  cases d.subnet <;> rfl

theorem dnsSubnetStep_nameservers (d : DriverCfg) (s : NetworkSettings) :
    (dnsSubnetStep d s).nameservers = s.nameservers := by
  unfold dnsSubnetStep
  cases d.subnet <;> rfl

theorem dnsGatewayStep_address (d : DriverCfg) (s : NetworkSettings) :
    (dnsGatewayStep d s).address = s.address := by
  unfold dnsGatewayStep
  cases d.gatewayIP with
  | some gw => rfl
  | none =>
    cases d.networkConfig with
    | none => rfl
    | some nc =>
      show (if nc.gateway ≠ "" then { s with gateway := nc.gateway } else s).address = _
      split_ifs <;> rfl

theorem dnsGatewayStep_gateway (d : DriverCfg) (s : NetworkSettings) :
    (dnsGatewayStep d s).gateway =
      match d.gatewayIP with
      | some gw => ipString gw
      | none =>
        match d.networkConfig with
        | some nc => if nc.gateway = "" then s.gateway else nc.gateway
        | none => s.gateway := by
  unfold dnsGatewayStep
  cases d.gatewayIP with
  | some gw => rfl
  | none =>
    cases d.networkConfig with
    | none => rfl
    | some nc =>
      show (if nc.gateway ≠ "" then { s with gateway := nc.gateway } else s).gateway
        = if nc.gateway = "" then s.gateway else nc.gateway
      split_ifs <;> simp_all

theorem dnsGatewayStep_nameservers (d : DriverCfg) (s : NetworkSettings) :
    (dnsGatewayStep d s).nameservers = s.nameservers := by
  unfold dnsGatewayStep
  cases d.gatewayIP with
  | some gw => rfl
  | none =>
    cases d.networkConfig with
    | none => rfl
    | some nc =>
      show (if nc.gateway ≠ "" then { s with gateway := nc.gateway } else s).nameservers = _
      split_ifs <;> rfl

theorem dnsBridgeNetmask_address (br : NetworkInterfaceBridgeConfig)
    (s : NetworkSettings) : (dnsBridgeNetmask br s).address = s.address := by
  unfold dnsBridgeNetmask
  split_ifs
  · cases atoi br.netmask with
    | none => rfl
    | some bits =>
      show (if 0 ≤ bits ∧ bits ≤ 32 then { s with cidrBits := bits } else s).address = _
      split_ifs <;> rfl
  · rfl

theorem dnsBridgeNetmask_gateway (br : NetworkInterfaceBridgeConfig)
    (s : NetworkSettings) : (dnsBridgeNetmask br s).gateway = s.gateway := by
  unfold dnsBridgeNetmask
  split_ifs
  · cases atoi br.netmask with
    | none => rfl
    | some bits =>
      show (if 0 ≤ bits ∧ bits ≤ 32 then { s with cidrBits := bits } else s).gateway = _
      split_ifs <;> rfl
  · rfl

theorem dnsBridgeNetmask_nameservers (br : NetworkInterfaceBridgeConfig)
    (s : NetworkSettings) :
    (dnsBridgeNetmask br s).nameservers = s.nameservers := by
  unfold dnsBridgeNetmask
  split_ifs
  · cases atoi br.netmask with
    | none => rfl
    | some bits =>
      show (if 0 ≤ bits ∧ bits ≤ 32 then { s with cidrBits := bits } else s).nameservers = _
      split_ifs <;> rfl
  · rfl

theorem dnsBridgeApply_address (br : NetworkInterfaceBridgeConfig)
    (s : NetworkSettings) :
    (dnsBridgeApply br s).address =
      if br.staticIP = "" then s.address else br.staticIP := by
  unfold dnsBridgeApply dnsBridgeDNS
  rw [apply_ite (fun t : NetworkSettings => t.address)]
  simp only [dnsBridgeNetmask_address]
  unfold dnsBridgeGatewayOv
  rw [apply_ite (fun t : NetworkSettings => t.address)]
  unfold dnsBridgeStatic
  split_ifs <;> simp_all

theorem dnsBridgeApply_gateway (br : NetworkInterfaceBridgeConfig)
    (s : NetworkSettings) :
    (dnsBridgeApply br s).gateway =
      if br.gateway = "" then s.gateway else br.gateway := by
  unfold dnsBridgeApply dnsBridgeDNS
  rw [apply_ite (fun t : NetworkSettings => t.gateway)]
  simp only [dnsBridgeNetmask_gateway]
  unfold dnsBridgeGatewayOv
  rw [apply_ite (fun t : NetworkSettings => t.gateway)]
  unfold dnsBridgeStatic
  split_ifs <;> simp_all

theorem dnsBridgeApply_nameservers (br : NetworkInterfaceBridgeConfig)
    (s : NetworkSettings) :
    (dnsBridgeApply br s).nameservers =
      if br.dns = [] then s.nameservers else br.dns := by
  unfold dnsBridgeApply dnsBridgeDNS
  rw [apply_ite (fun t : NetworkSettings => t.nameservers)]
  simp only [dnsBridgeNetmask_nameservers]
  unfold dnsBridgeGatewayOv
  rw [apply_ite (fun t : NetworkSettings => t.nameservers)]
  unfold dnsBridgeStatic
  split_ifs <;> simp_all

theorem dnsBridgeStep_eq (config : DomainConfig) (s : NetworkSettings) :
    dnsBridgeStep (some config) s =
      match bridgeOf config with
      | some br => dnsBridgeApply br s
      | none => s := by
  show (match config.networkInterfaces.head? with
        | some ni =>
          match ni.bridge with
          | some br => dnsBridgeApply br s
          | none => s
        | none => s) =
      match bridgeOf config with
      | some br => dnsBridgeApply br s
      | none => s
  unfold bridgeOf
  cases config.networkInterfaces.head? with
  | none => rfl
  | some ni => cases ni.bridge <;> rfl

theorem dnsBridgeStep_address (config : DomainConfig) (s : NetworkSettings) :
    (dnsBridgeStep (some config) s).address =
      match bridgeOf config with
      | some br => if br.staticIP = "" then s.address else br.staticIP
      | none => s.address := by
  rw [dnsBridgeStep_eq]
  cases bridgeOf config with
  | none => rfl
  | some br => exact dnsBridgeApply_address br s

theorem dnsBridgeStep_gateway (config : DomainConfig) (s : NetworkSettings) :
    (dnsBridgeStep (some config) s).gateway =
      match bridgeOf config with
      | some br => if br.gateway = "" then s.gateway else br.gateway
      | none => s.gateway := by
  rw [dnsBridgeStep_eq]
  cases bridgeOf config with
  | none => rfl
  | some br => exact dnsBridgeApply_gateway br s

theorem dnsBridgeStep_nameservers (config : DomainConfig) (s : NetworkSettings) :
    (dnsBridgeStep (some config) s).nameservers =
      match bridgeOf config with
      | some br => if br.dns = [] then s.nameservers else br.dns
      | none => s.nameservers := by
  rw [dnsBridgeStep_eq]
  cases bridgeOf config with
  | none => rfl
  | some br => exact dnsBridgeApply_nameservers br s

theorem dnsCidrDefaultStep_address (s : NetworkSettings) :
    (dnsCidrDefaultStep s).address = s.address := by
  unfold dnsCidrDefaultStep
  split_ifs <;> rfl

theorem dnsCidrDefaultStep_gateway (s : NetworkSettings) :
    (dnsCidrDefaultStep s).gateway = s.gateway := by
  unfold dnsCidrDefaultStep
  split_ifs <;> rfl

theorem dnsCidrDefaultStep_nameservers (s : NetworkSettings) :
    (dnsCidrDefaultStep s).nameservers = s.nameservers := by
  unfold dnsCidrDefaultStep
  split_ifs <;> rfl

theorem dnsProcStep_cidrBits (pr : VMProc) (s : NetworkSettings) :
    (dnsProcStep (some pr) s).cidrBits = s.cidrBits := by
  show (if pr.ip ≠ "" then { s with address := pr.ip } else s).cidrBits = _
  split_ifs <;> rfl

theorem dnsSubnetStep_cidrBits (d : DriverCfg) (s : NetworkSettings) :
    (dnsSubnetStep d s).cidrBits =
      match d.subnet with
      | some p => (p.bits : Int)
      | none => s.cidrBits := by
  unfold dnsSubnetStep
  cases d.subnet <;> rfl

theorem dnsGatewayStep_cidrBits (d : DriverCfg) (s : NetworkSettings) :
    (dnsGatewayStep d s).cidrBits = s.cidrBits := by
  unfold dnsGatewayStep
  cases d.gatewayIP with
  | some gw => rfl
  | none =>
    cases d.networkConfig with
    | none => rfl
    | some nc =>
      show (if nc.gateway ≠ "" then { s with gateway := nc.gateway } else s).cidrBits = _
      split_ifs <;> rfl

theorem dnsBridgeStatic_cidrBits (br : NetworkInterfaceBridgeConfig)
    (s : NetworkSettings) : (dnsBridgeStatic br s).cidrBits = s.cidrBits := by
  unfold dnsBridgeStatic
  split_ifs <;> rfl

theorem dnsBridgeGatewayOv_cidrBits (br : NetworkInterfaceBridgeConfig)
    (s : NetworkSettings) : (dnsBridgeGatewayOv br s).cidrBits = s.cidrBits := by
  unfold dnsBridgeGatewayOv
  split_ifs <;> rfl

theorem dnsBridgeNetmask_cidrBits (br : NetworkInterfaceBridgeConfig)
    (s : NetworkSettings) :
    (dnsBridgeNetmask br s).cidrBits =
      match netmaskOverride br with
      | some bits => bits
      | none => s.cidrBits := by
  unfold dnsBridgeNetmask netmaskOverride
  by_cases h : br.netmask ≠ ""
  · rw [if_pos h, if_pos h]
    cases atoi br.netmask with
    | none => rfl
    | some bits =>
      show (if 0 ≤ bits ∧ bits ≤ 32 then { s with cidrBits := bits } else s).cidrBits =
        match (if 0 ≤ bits ∧ bits ≤ 32 then some bits else none) with
        | some b => b
        | none => s.cidrBits
      by_cases hb : 0 ≤ bits ∧ bits ≤ 32
      · rw [if_pos hb, if_pos hb]
      · rw [if_neg hb, if_neg hb]
  · rw [if_neg h, if_neg h]

theorem dnsBridgeApply_cidrBits (br : NetworkInterfaceBridgeConfig)
    (s : NetworkSettings) :
    (dnsBridgeApply br s).cidrBits =
      match netmaskOverride br with
      | some bits => bits
      | none => s.cidrBits := by
  unfold dnsBridgeApply dnsBridgeDNS
  rw [apply_ite (fun t : NetworkSettings => t.cidrBits)]
  simp only [dnsBridgeNetmask_cidrBits, dnsBridgeGatewayOv_cidrBits,
    dnsBridgeStatic_cidrBits]
  split_ifs <;> rfl

theorem dnsBridgeStep_cidrBits (config : DomainConfig) (s : NetworkSettings) :
    (dnsBridgeStep (some config) s).cidrBits =
      match bridgeOf config with
      | some br =>
        match netmaskOverride br with
        | some bits => bits
        | none => s.cidrBits
      | none => s.cidrBits := by
  rw [dnsBridgeStep_eq]
  cases bridgeOf config with
  | none => rfl
  | some br => exact dnsBridgeApply_cidrBits br s

theorem dnsCidrDefaultStep_cidrBits (s : NetworkSettings) :
    (dnsCidrDefaultStep s).cidrBits =
      if s.cidrBits < 0 then 24 else s.cidrBits := by
  unfold dnsCidrDefaultStep
  split_ifs <;> rfl

/-- C4 (amended): `deriveNetworkSettings` resolves the address with the task
static-IP override at highest precedence, the VMM-process-reported address
next, and no driver-wide fallback for the address; gateway, netmask
(prefix length) and nameservers resolve the task override above the
driver-wide defaults — for the netmask the override applies when it parses
to 0..32, the default being the subnet's prefix length or, failing that,
24; the success flag is exactly address non-emptiness. -/
theorem deriveNetworkSettings_precedence (d : DriverCfg) (config : DomainConfig)
    (proc : VMProc) :
    ((deriveNetworkSettings d (some config) (some proc)).1.address =
      match bridgeOf config with
      | some br => if br.staticIP = "" then proc.ip else br.staticIP
      | none => proc.ip)
    ∧ ((deriveNetworkSettings d (some config) (some proc)).1.gateway =
      match bridgeOf config with
      | some br => if br.gateway = "" then defaultGateway d else br.gateway
      | none => defaultGateway d)
    ∧ ((deriveNetworkSettings d (some config) (some proc)).1.cidrBits =
      match bridgeOf config with
      | some br =>
        match netmaskOverride br with
        | some bits => bits
        | none => defaultCidr d
      | none => defaultCidr d)
    ∧ ((deriveNetworkSettings d (some config) (some proc)).1.nameservers =
      match bridgeOf config with
      | some br => if br.dns = [] then ["8.8.8.8", "8.8.4.4"] else br.dns
      | none => ["8.8.8.8", "8.8.4.4"])
    ∧ ((deriveNetworkSettings d (some config) (some proc)).2 =
      !((deriveNetworkSettings d (some config) (some proc)).1.address == "")) := by
  set s4 := dnsGatewayStep d (dnsSubnetStep d (dnsProcStep (some proc) dnsDefaults))
    with hs4
  set s5 := dnsCidrDefaultStep (dnsBridgeStep (some config) s4) with hs5
  have hres : (deriveNetworkSettings d (some config) (some proc)).1 = s5 := by
    show (if s5.address = "" then (s5, false) else (s5, true)).1 = s5
    split_ifs <;> rfl
  have hres2 : (deriveNetworkSettings d (some config) (some proc)).2 =
      (if s5.address = "" then false else true) := by
    show (if s5.address = "" then (s5, false) else (s5, true)).2 = _
    split_ifs <;> rfl
  have haddr4 : s4.address = proc.ip := by
    rw [hs4, dnsGatewayStep_address, dnsSubnetStep_address, dnsProcStep_address]
    show (if proc.ip = "" then dnsDefaults.address else proc.ip) = proc.ip
    split_ifs with hip
    · exact hip.symm
    · rfl
  have hgw4 : s4.gateway = defaultGateway d := by
    rw [hs4, dnsGatewayStep_gateway, dnsSubnetStep_gateway, dnsProcStep_gateway]
    unfold defaultGateway
    cases d.gatewayIP with
    | some gw => rfl
    | none =>
      cases d.networkConfig with
      | some nc =>
        show (if nc.gateway = "" then dnsDefaults.gateway else nc.gateway) = _
        split_ifs with hc
        · exact hc.symm
        · rfl
      | none => rfl
  have hns4 : s4.nameservers = ["8.8.8.8", "8.8.4.4"] := by
    rw [hs4, dnsGatewayStep_nameservers, dnsSubnetStep_nameservers,
      dnsProcStep_nameservers]
    rfl
  have hcidr4 : s4.cidrBits =
      match d.subnet with
      | some p => (p.bits : Int)
      | none => (-1 : Int) := by
    rw [hs4, dnsGatewayStep_cidrBits, dnsSubnetStep_cidrBits,
      dnsProcStep_cidrBits]
    cases d.subnet <;> rfl
  refine ⟨?_, ?_, ?_, ?_, ?_⟩
  · rw [hres, hs5, dnsCidrDefaultStep_address, dnsBridgeStep_address, haddr4]
  · rw [hres, hs5, dnsCidrDefaultStep_gateway, dnsBridgeStep_gateway, hgw4]
  · rw [hres, hs5, dnsCidrDefaultStep_cidrBits, dnsBridgeStep_cidrBits, hcidr4]
    cases hbr : bridgeOf config with
    | none =>
      unfold defaultCidr
      exact cidrResolve none d.subnet (fun b hb => Option.noConfusion hb)
    | some br =>
      unfold defaultCidr
      exact cidrResolve (netmaskOverride br) d.subnet
        (fun b hb => netmaskOverride_nonneg br b hb)
  · rw [hres, hs5, dnsCidrDefaultStep_nameservers, dnsBridgeStep_nameservers, hns4]
  · rw [hres2, hres]
    by_cases ha : s5.address = ""
    · rw [if_pos ha, ha]
      rfl
    · rw [if_neg ha]
      have hb : (s5.address == "") = false := by simpa using ha
      rw [hb]
      rfl

theorem any_filter_name (procs : List VMProc) (name : String) :
    ((procs.filter fun pr => !(pr.name == name)).any fun pr => pr.name == name)
      = false := by
  induction procs with
  | nil => rfl
  | cons p ps ih =>
    rw [List.filter_cons]
    by_cases hp : (p.name == name) = true
    · rw [if_neg (by simp [hp])]
      exact ih
    · have hp' : (p.name == name) = false := by simpa using hp
      rw [if_pos (by simp [hp'])]
      simp [List.any_cons, hp', ih]

theorem find?_eq_none_of_any_false (procs : List VMProc) (name : String)
    (h : (procs.any fun pr => pr.name == name) = false) :
    procs.find? (fun pr => pr.name == name) = none := by
  induction procs with
  | nil => rfl
  | cons p ps ih =>
    simp only [List.any_cons, Bool.or_eq_false_iff] at h
    rw [List.find?_cons_of_neg _ (by simp [h.1])]
    exact ih h.2

/-- C7: for a registered VM name, StopDomain returns nil and leaves the
registry entry and the IP allocation unchanged; DestroyDomain removes
exactly the registry entry and the recorded IP from the allocated set; both
return an error and change nothing when the name is not registered. -/
theorem stop_keeps_destroy_removes (name : String) (st : DriverState) :
    ((st.processes.any fun pr => pr.name == name) = true →
      StopDomain name st = (none, st))
    ∧ ((st.processes.any fun pr => pr.name == name) = false →
      StopDomain name st = (some .notFound, st))
    ∧ (∀ proc, st.processes.find? (fun pr => pr.name == name) = some proc →
      (DestroyDomain name st).1 = none ∧
      (DestroyDomain name st).2.processes =
        st.processes.filter (fun pr => !(pr.name == name)) ∧
      ((DestroyDomain name st).2.processes.any fun pr => pr.name == name) = false ∧
      (DestroyDomain name st).2.allocatedIPs =
        deallocateIP st.allocatedIPs proc.ip ∧
      (DestroyDomain name st).2.allocatedIPs.contains proc.ip = false)
    ∧ ((st.processes.any fun pr => pr.name == name) = false →
      DestroyDomain name st = (some .notFound, st)) := by
  refine ⟨?_, ?_, ?_, ?_⟩
  · intro h
    unfold StopDomain
    rw [if_pos h]
  · intro h
    unfold StopDomain
    rw [if_neg (by rw [h]; simp)]
  · intro proc hfind
    unfold DestroyDomain
    rw [hfind]
    exact ⟨rfl, rfl, any_filter_name st.processes name, rfl,
      contains_deallocate _ _⟩
  · intro h
    unfold DestroyDomain
    rw [find?_eq_none_of_any_false st.processes name h]

/-- Witness for C7 at a registered process. -/
theorem stop_keeps_destroy_removes_witness :
    stWithVM.processes.find? (fun pr => pr.name == "vm1") = some procEx ∧
    (DestroyDomain "vm1" stWithVM).2.allocatedIPs.contains procEx.ip = false :=
  ⟨by decide,
    ((stop_keeps_destroy_removes "vm1" stWithVM).2.2.1 procEx
      (by decide)).2.2.2.2⟩

/-- C8 counterexample: the allowlist matcher returns false — not true — for
the empty allowlist (as the repository's TestMatchesAllowlist table
requires), refuting the claim that the matcher yields true whenever the
allowlist is empty. -/
theorem matchesAllowlist_empty_cex :
    matchesAllowlist "10de" "2204" [] = false := by decide

/-- C8 (amended): the matcher returns true exactly when some allowlist entry
equals the vendor:device pair or the vendor wildcard, case-insensitively; on
an empty allowlist the matcher returns false, the
empty-allowlist-permits-everything behavior living in the ValidateDevices
gate (`deviceAllowed`), which returns true for the empty allowlist and
defers to the matcher otherwise; the spec's example vectors hold. -/
theorem matchesAllowlist_characterization (vendor device : String)
    (allowlist : List String) :
    (matchesAllowlist vendor device allowlist = true ↔
      ∃ entry ∈ allowlist,
        strToLower entry = strToLower (vendor ++ ":" ++ device) ∨
        strToLower entry = strToLower vendor ++ ":*")
    ∧ matchesAllowlist vendor device [] = false
    ∧ deviceAllowed vendor device [] = true
    ∧ (allowlist ≠ [] →
        deviceAllowed vendor device allowlist =
          matchesAllowlist vendor device allowlist)
    ∧ matchesAllowlist "10de" "2204" ["10de:*"] = true
    ∧ matchesAllowlist "8086" "0d26" ["10de:*"] = false
    ∧ matchesAllowlist "10DE" "2204" ["10de:2204"] = true := by
  refine ⟨?_, by rfl, by rfl, ?_, by decide, by decide, by decide⟩
  · unfold matchesAllowlist
    simp [List.any_eq_true]
  · intro hne
    unfold deviceAllowed
    cases allowlist with
    | nil => exact absurd rfl hne
    | cons a l => simp

/-- Witness for the amended C8 on a non-empty allowlist. -/
theorem matchesAllowlist_characterization_witness :
    (["10de:*"] ≠ ([] : List String)) ∧
    deviceAllowed "10de" "2204" ["10de:*"] =
      matchesAllowlist "10de" "2204" ["10de:*"] :=
  ⟨by decide,
    (matchesAllowlist_characterization "10de" "2204" ["10de:*"]).2.2.2.1
      (by decide)⟩

/-- C9 counterexample: with the 9-character prefix "nomad-tap" (a tap_prefix
value shown in the repository's installation docs) and a 64-character hex
digest, the generated TAP name has 17 characters, exceeding the
15-character IFNAMSIZ limit. -/
theorem tapName_exceeds_ifnamsiz_cex :
    digest64.length = 64 ∧
    (tapNameOf "nomad-tap" digest64).length = 17 ∧
    ¬ ((tapNameOf "nomad-tap" digest64).length ≤ 15) := by
  decide

/-- C9 (amended): only the hash part of the TAP name is truncated (to 8
characters), so with the 64-character SHA-256 hex digest the name has
prefix-length + 8 characters and fits the 15-character IFNAMSIZ limit
exactly when the configured prefix has at most 7 characters — which the
default prefix "tap" does. -/
theorem tapName_length (tapPrefix digestHex : String)
    (hd : digestHex.length = 64) :
    (tapNameOf tapPrefix digestHex).length = tapPrefix.length + 8 ∧
    ((tapNameOf tapPrefix digestHex).length ≤ 15 ↔ tapPrefix.length ≤ 7) := by
  have hlen : (tapNameOf tapPrefix digestHex).length = tapPrefix.length + 8 := by
    unfold tapNameOf
    rw [String.length_append]
    congr 1
    show (digestHex.data.take 8).length = 8
    rw [List.length_take]
    have h64 : digestHex.data.length = 64 := hd
    omega
  exact ⟨hlen, by rw [hlen]; omega⟩

/-- Witness for the amended C9 at the default prefix. -/
theorem tapName_length_witness :
    digest64.length = 64 ∧ (tapNameOf "tap" digest64).length = 11 :=
  ⟨by decide, ((tapName_length "tap" digest64 (by decide)).1).trans (by decide)⟩

theorem stopDomain_snd (name : String) (st : DriverState) :
    (StopDomain name st).2 = st := by
  unfold StopDomain
  split_ifs <;> rfl

theorem destroyDomain_alloc_subset (name : String) (st : DriverState)
    (s : String) (hs : s ∈ (DestroyDomain name st).2.allocatedIPs) :
    s ∈ st.allocatedIPs := by
  unfold DestroyDomain at hs
  split at hs
  · exact hs
  · exact List.mem_of_mem_filter hs

theorem allocateIP_ok_props (d : DriverCfg) (hv : validateNetworkConfig d = true)
    (alloc : List String) (ip : String) (a : List String)
    (h : allocateIP d alloc = .ok (ip, a)) :
    ∃ k, k < 2 ^ 32 ∧ ip = ipString k ∧ subnetContains d.subnet k = true ∧
      (∀ s0, d.ipPoolStart = some s0 → s0 ≤ k) ∧
      (∀ e, d.ipPoolEnd = some e → k ≤ e) ∧ d.gatewayIP ≠ some k := by
  obtain ⟨p, s, e, gw, hsub, hps, hpe, hgw, hslt, helt, hgwlt, hcs, hce, hcgw,
    hsle, hgwne⟩ := validateNetworkConfig_facts d hv
  have heq := allocateIP_eq_loop d s e hps hpe hslt helt alloc
  rcases allocateIPLoop_spec d p e alloc hsub helt hce (2 ^ 32) s hsle hcs
      (by omega) with ⟨k, hk1, hk2, hk3, hk4, hk5⟩ | ⟨hall, herr⟩
  · rw [heq, hk4] at h
    simp only [Except.ok.injEq, Prod.mk.injEq] at h
    refine ⟨k, by omega, h.1.symm, ?_, ?_, ?_, ?_⟩
    · rw [hsub]
      show p.containsIP k = true
      exact containsIP_of_between p hcs hce hk1 hk2
    · intro s0 hs0
      rw [hps] at hs0
      injection hs0 with hh
      omega
    · intro e0 he0
      rw [hpe] at he0
      injection he0 with hh
      omega
    · intro hgwk
      exact hk3 (Or.inl hgwk)
  · rw [heq, herr] at h
    exact absurd h (by simp)

theorem allocForCreate_none_static (d : DriverCfg) (config : DomainConfig)
    (alloc : List String) (ip : String) (a : List String)
    (hns : staticIPOf config = none)
    (h : allocForCreate d config alloc = .ok (ip, a)) :
    allocateIP d alloc = .ok (ip, a) := by
  unfold allocForCreate at h
  rw [hns] at h
  cases hcall : allocateIP d alloc with
  | ok r =>
    rw [hcall] at h
    have hr : r = (ip, a) := by simpa using h
    exact congrArg Except.ok hr
  | error e =>
    rw [hcall] at h
    exact absurd h (by simp)

theorem allocForCreate_static (d : DriverCfg) (config : DomainConfig)
    (alloc : List String) (sip : String) (hsip : staticIPOf config = some sip) :
    allocForCreate d config alloc =
      (if (match d.subnet, parseNetipAddr sip with
          | some p, some a => !(netipPrefixContains p a)
          | _, _ => false) then (.error .staticIPOutsideSubnet)
       else if alloc.contains sip then (.error .staticIPAlreadyAllocated)
       else .ok (sip, sip :: alloc)) := by
  unfold allocForCreate
  rw [hsip]

theorem allocForCreate_ok_parse (d : DriverCfg)
    (hv : validateNetworkConfig d = true) (config : DomainConfig)
    (alloc : List String) (ip : String) (a : List String)
    (h : allocForCreate d config alloc = .ok (ip, a)) :
    ∀ x, parseAddr ip = some x → subnetContains d.subnet x = true := by
  cases hst : staticIPOf config with
  | none =>
    have hcall := allocForCreate_none_static d config alloc ip a hst h
    obtain ⟨k, hklt, hip, hcontains, _, _, _⟩ :=
      allocateIP_ok_props d hv alloc ip a hcall
    intro x hx
    rw [hip, parseAddr_ipString k hklt] at hx
    injection hx with hxx
    rw [← hxx]
    exact hcontains
  | some sip =>
    rw [allocForCreate_static d config alloc sip hst] at h
    split at h
    · exact absurd h (by simp)
    · rename_i hc1
      split at h
      · exact absurd h (by simp)
      · simp only [Except.ok.injEq, Prod.mk.injEq] at h
        obtain ⟨h1, h2⟩ := h
        subst h1
        intro x hx
        obtain ⟨p, s, e, gw, hsub, _⟩ := validateNetworkConfig_facts d hv
        rw [hsub, parseNetipAddr_v4 _ x hx] at hc1
        rw [hsub]
        show p.containsIP x = true
        have hnp : netipPrefixContains p (NetipAddr.v4 x) = true := by
          simpa using hc1
        simpa [netipPrefixContains] using hnp

theorem createDomain_alloc_shape (d : DriverCfg) (steps : StepOutcomes)
    (config : DomainConfig) (digestHex : String) (st : DriverState) :
    (CreateDomain d steps config digestHex st).2.allocatedIPs = st.allocatedIPs ∨
    ∃ ip, allocForCreate d config st.allocatedIPs = .ok (ip, ip :: st.allocatedIPs) ∧
      (CreateDomain d steps config digestHex st).2.allocatedIPs =
        ip :: st.allocatedIPs := by
  rcases hcd : CreateDomain d steps config digestHex st with ⟨err, st2⟩
  have hgoal : st2.allocatedIPs = st.allocatedIPs ∨
      ∃ ip, allocForCreate d config st.allocatedIPs =
          .ok (ip, ip :: st.allocatedIPs) ∧
        st2.allocatedIPs = ip :: st.allocatedIPs := by
    unfold CreateDomain at hcd
    split at hcd
    · injection hcd with h1 h2
      subst h2
      left; rfl
    · split at hcd
      · injection hcd with h1 h2
        subst h2
        left; rfl
      · split at hcd
        · injection hcd with h1 h2
          subst h2
          left; rfl
        · rename_i ip alloc1 hcall
          obtain ⟨hfree, hshape⟩ :=
            allocForCreate_ok_shape d config st.allocatedIPs ip alloc1 hcall
          subst hshape
          have hrb : deallocateIP (ip :: st.allocatedIPs) ip = st.allocatedIPs :=
            deallocate_fresh _ _ hfree
          repeat' split at hcd
          all_goals injection hcd with h1 h2
          all_goals subst h2
          all_goals first
            | (left
               show deallocateIP (ip :: st.allocatedIPs) ip = st.allocatedIPs
               exact hrb)
            | (right; exact ⟨ip, hcall, rfl⟩)
  exact hgoal

/-- Full pool invariant: every allocated string renders an address inside
the subnet and the pool bounds and distinct from the gateway. -/
def PoolInv (d : DriverCfg) (alloc : List String) : Prop :=
  ∀ s ∈ alloc, ∃ k, k < 2 ^ 32 ∧ s = ipString k ∧
    subnetContains d.subnet k = true ∧
    (∀ s0, d.ipPoolStart = some s0 → s0 ≤ k) ∧
    (∀ e, d.ipPoolEnd = some e → k ≤ e) ∧ d.gatewayIP ≠ some k

/-- Weak invariant: every allocated string that parses as an IPv4 address
lies inside the subnet. -/
def ParseInv (d : DriverCfg) (alloc : List String) : Prop :=
  ∀ s ∈ alloc, ∀ a, parseAddr s = some a → subnetContains d.subnet a = true

/-- C5 counterexample: under a valid configuration, CreateDomain accepts a
task-supplied static IP equal to the gateway address and records it in the
allocated set — the static-IP path checks subnet membership only, neither
the gateway nor the pool bounds — refuting the claimed invariant for the
static-IP path. -/
theorem allocated_set_gateway_cex :
    validateNetworkConfig cfgEx = true ∧
    cfgEx.gatewayIP = some 167772161 ∧
    (CreateDomain cfgEx stepsAllOk (domainCfgStatic "10.0.0.1") "" emptyState).1
      = none ∧
    ((CreateDomain cfgEx stepsAllOk (domainCfgStatic "10.0.0.1") ""
      emptyState).2.allocatedIPs.contains (ipString 167772161)) = true := by
  decide

/-- C5 (amended): under a valid network configuration, addresses allocated
from the pool satisfy the full invariant — inside the subnet and pool
bounds, never the gateway — and this is preserved by CreateDomain without a
static IP and by StopDomain and DestroyDomain; through the static-IP path
only the weaker invariant holds and is preserved: every allocated string
that parses as an address lies inside the subnet (it may equal the gateway
or fall outside the pool bounds). -/
theorem allocated_set_invariant (d : DriverCfg)
    (hv : validateNetworkConfig d = true) :
    (∀ steps config digestHex st, staticIPOf config = none →
      PoolInv d st.allocatedIPs →
      PoolInv d (CreateDomain d steps config digestHex st).2.allocatedIPs)
    ∧ (∀ steps config digestHex st, ParseInv d st.allocatedIPs →
      ParseInv d (CreateDomain d steps config digestHex st).2.allocatedIPs)
    ∧ (∀ name st, PoolInv d st.allocatedIPs → ParseInv d st.allocatedIPs →
      PoolInv d (StopDomain name st).2.allocatedIPs ∧
      ParseInv d (StopDomain name st).2.allocatedIPs ∧
      PoolInv d (DestroyDomain name st).2.allocatedIPs ∧
      ParseInv d (DestroyDomain name st).2.allocatedIPs) := by
  refine ⟨?_, ?_, ?_⟩
  · intro steps config digestHex st hns hinv
    rcases createDomain_alloc_shape d steps config digestHex st with
      heq | ⟨ip, hcall, heq⟩
    · rw [heq]; exact hinv
    · rw [heq]
      intro s hs
      rcases List.mem_cons.mp hs with rfl | hmem
      · have hcall2 := allocForCreate_none_static d config st.allocatedIPs s
          (s :: st.allocatedIPs) hns hcall
        obtain ⟨k, hklt, hip, hcont, hlo, hhi, hgw⟩ :=
          allocateIP_ok_props d hv st.allocatedIPs s (s :: st.allocatedIPs) hcall2
        exact ⟨k, hklt, hip, hcont, hlo, hhi, hgw⟩
      · exact hinv s hmem
  · intro steps config digestHex st hinv
    rcases createDomain_alloc_shape d steps config digestHex st with
      heq | ⟨ip, hcall, heq⟩
    · rw [heq]; exact hinv
    · rw [heq]
      intro s hs
      rcases List.mem_cons.mp hs with rfl | hmem
      · exact allocForCreate_ok_parse d hv config st.allocatedIPs s
          (s :: st.allocatedIPs) hcall
      · exact hinv s hmem
  · intro name st hpool hparse
    refine ⟨?_, ?_, ?_, ?_⟩
    · rw [stopDomain_snd]; exact hpool
    · rw [stopDomain_snd]; exact hparse
    · intro s hs
      exact hpool s (destroyDomain_alloc_subset name st s hs)
    · intro s hs
      exact hparse s (destroyDomain_alloc_subset name st s hs)

/-- Witness for the amended C5 at the example configuration and empty
state. -/
theorem allocated_set_invariant_witness :
    validateNetworkConfig cfgEx = true ∧
    PoolInv cfgEx (StopDomain "vm1" emptyState).2.allocatedIPs :=
  ⟨by decide,
    ((allocated_set_invariant cfgEx (by decide)).2.2 "vm1" emptyState
      (fun s hs => absurd hs (List.not_mem_nil s))
      (fun s hs => absurd hs (List.not_mem_nil s))).1⟩

/-- C6 counterexample: a static IP string that `netip.ParseAddr` cannot
parse at all — hence never an address inside the configured subnet — is
accepted: CreateDomain succeeds and records the raw string as allocated,
refuting the claim that CreateDomain fails whenever the static IP does not
fall inside the subnet. -/
theorem createDomain_unparseable_static_accepted_cex :
    validateNetworkConfig cfgEx = true ∧
    parseNetipAddr "512.0.0.1" = none ∧
    (CreateDomain cfgEx stepsAllOk (domainCfgStatic "512.0.0.1") ""
      emptyState).1 = none ∧
    ((CreateDomain cfgEx stepsAllOk (domainCfgStatic "512.0.0.1") ""
      emptyState).2.allocatedIPs.contains "512.0.0.1") = true := by
  decide

/-- C6 (amended): with the duplicate-name and work-directory checks passing,
CreateDomain rejects a static IP that `netip.ParseAddr` parses to an
address not contained in a configured subnet (outside-subnet error, state
unchanged) — in particular every IPv6 parse, never contained in the IPv4
subnet — and rejects an already-allocated static IP string
(already-allocated error, state unchanged); any other static IP — parsing
inside the subnet, or not parseable by `ParseAddr` at all — passes the
static-IP validation: CreateDomain never returns either static-IP error for
it. -/
theorem createDomain_static_ip_validation (d : DriverCfg) (steps : StepOutcomes)
    (config : DomainConfig) (digestHex : String) (st : DriverState)
    (sip : String)
    (hname : (st.processes.any fun pr => pr.name == config.name) = false)
    (hmk : steps.mkdirOk = true)
    (hsip : staticIPOf config = some sip) :
    ((∃ p a, d.subnet = some p ∧ parseNetipAddr sip = some a ∧
        netipPrefixContains p a = false) →
      CreateDomain d steps config digestHex st =
        (some .staticIPOutsideSubnet, st))
    ∧ (∀ p bytes zone, d.subnet = some p →
        parseNetipAddr sip = some (.v6 bytes zone) →
      CreateDomain d steps config digestHex st =
        (some .staticIPOutsideSubnet, st))
    ∧ (¬ (∃ p a, d.subnet = some p ∧ parseNetipAddr sip = some a ∧
        netipPrefixContains p a = false) →
      st.allocatedIPs.contains sip = true →
      CreateDomain d steps config digestHex st =
        (some .staticIPAlreadyAllocated, st))
    ∧ (¬ (∃ p a, d.subnet = some p ∧ parseNetipAddr sip = some a ∧
        netipPrefixContains p a = false) →
      st.allocatedIPs.contains sip = false →
      ∀ e, (CreateDomain d steps config digestHex st).1 = some e →
        e ≠ .staticIPOutsideSubnet ∧ e ≠ .staticIPAlreadyAllocated)
    ∧ (parseNetipAddr sip = none →
      ¬ (∃ p a, d.subnet = some p ∧ parseNetipAddr sip = some a ∧
        netipPrefixContains p a = false)) := by
  have hcond : ((match d.subnet, parseNetipAddr sip with
      | some p, some a => !(netipPrefixContains p a)
      | _, _ => false) = true) ↔
      (∃ p a, d.subnet = some p ∧ parseNetipAddr sip = some a ∧
        netipPrefixContains p a = false) := by
    cases hs : d.subnet <;> cases hp : parseNetipAddr sip <;> simp
  have hmain1 : (∃ p a, d.subnet = some p ∧ parseNetipAddr sip = some a ∧
      netipPrefixContains p a = false) →
      CreateDomain d steps config digestHex st =
        (some .staticIPOutsideSubnet, st) := by
    intro hex
    have hc := hcond.mpr hex
    unfold CreateDomain
    rw [if_neg (by rw [hname]; simp), if_neg (by rw [hmk]; simp),
      allocForCreate_static d config st.allocatedIPs sip hsip, if_pos hc]
  refine ⟨hmain1, ?_, ?_, ?_, ?_⟩
  · intro p bytes zone hp hv6
    exact hmain1 ⟨p, .v6 bytes zone, hp, hv6, rfl⟩
  · intro hnex hmem
    have hc : (match d.subnet, parseNetipAddr sip with
        | some p, some a => !(netipPrefixContains p a)
        | _, _ => false) = false := by
      cases hcc : (match d.subnet, parseNetipAddr sip with
          | some p, some a => !(netipPrefixContains p a)
          | _, _ => false) with
      | true => exact absurd (hcond.mp hcc) hnex
      | false => rfl
    unfold CreateDomain
    rw [if_neg (by rw [hname]; simp), if_neg (by rw [hmk]; simp),
      allocForCreate_static d config st.allocatedIPs sip hsip,
      if_neg (by rw [hc]; simp), if_pos hmem]
  · intro hnex hfree e he
    have hc : (match d.subnet, parseNetipAddr sip with
        | some p, some a => !(netipPrefixContains p a)
        | _, _ => false) = false := by
      cases hcc : (match d.subnet, parseNetipAddr sip with
          | some p, some a => !(netipPrefixContains p a)
          | _, _ => false) with
      | true => exact absurd (hcond.mp hcc) hnex
      | false => rfl
    have hok : allocForCreate d config st.allocatedIPs =
        .ok (sip, sip :: st.allocatedIPs) := by
      rw [allocForCreate_static d config st.allocatedIPs sip hsip,
        if_neg (by rw [hc]; simp), if_neg (by rw [hfree]; simp)]
    unfold CreateDomain at he
    rw [if_neg (by rw [hname]; simp), if_neg (by rw [hmk]; simp)] at he
    split at he
    · rename_i e2 heq
      rw [hok] at heq
      cases heq
    · rename_i ip2 alloc2 heq
      rw [hok] at heq
      injection heq with heq2
      injection heq2 with hs1 hs2
      subst hs1
      subst hs2
      repeat' split at he
      all_goals
        first
        | (injection he with hee; subst hee; exact ⟨by decide, by decide⟩)
        | injection he
  · intro hnone
    rintro ⟨p, a, hp, ha, hcc⟩
    rw [hnone] at ha
    exact Option.noConfusion ha

/-- Witness for the amended C6: a static IPv4 address outside the subnet
and a static IPv6 address are both rejected with an unchanged state. -/
theorem createDomain_static_ip_validation_witness :
    staticIPOf (domainCfgStatic "10.1.0.1") = some "10.1.0.1" ∧
    CreateDomain cfgEx stepsAllOk (domainCfgStatic "10.1.0.1") "" emptyState =
      (some CreateErr.staticIPOutsideSubnet, emptyState) ∧
    CreateDomain cfgEx stepsAllOk (domainCfgStatic "::1") "" emptyState =
      (some CreateErr.staticIPOutsideSubnet, emptyState) :=
  ⟨by decide,
    (createDomain_static_ip_validation cfgEx stepsAllOk
      (domainCfgStatic "10.1.0.1") "" emptyState "10.1.0.1"
      (by decide) (by decide) (by decide)).1
      ⟨⟨167772160, 30⟩, .v4 167837697, rfl, by decide, by decide⟩,
    (createDomain_static_ip_validation cfgEx stepsAllOk
      (domainCfgStatic "::1") "" emptyState "::1"
      (by decide) (by decide) (by decide)).2.1
      ⟨167772160, 30⟩ (List.replicate 14 0 ++ [0, 1]) "" rfl (by decide)⟩

end NomadDriverCH